import Mathlib

/-!
# Dashboard client script (`app/static/app.js`): embedding and verified properties

The script is a set of event handlers over a page.  The embedding has three layers:

* JavaScript strings and parsed JSON values (`Str`, `JsVal`) with the few primitive
  operations the script uses (`trim`, `split(",")`, truthiness, `ToString`, `parseInt`);
* a writer/exception monad `M` in which a handler emits the calls it makes
  (`disable`, `setStatus`, `fetch`, `Plotly.newPlot`, `setTimeout`, property writes)
  and either returns or throws;
* the page state `Dom` on which the emitted calls are replayed.
-/

namespace App

/-! ## Strings -/

/-- JavaScript strings, as lists of characters. -/
abbrev Str := List Char

/-- ECMAScript `WhiteSpace` and `LineTerminator` code points: the characters removed by
`String.prototype.trim` and skipped by `parseInt`. -/
def isWhiteSpace (c : Char) : Bool :=
  let n := c.toNat
  n = 0x09 || n = 0x0A || n = 0x0B || n = 0x0C || n = 0x0D || n = 0x20 || n = 0xA0 ||
  n = 0x1680 || (0x2000 ≤ n && n ≤ 0x200A) || n = 0x2028 || n = 0x2029 || n = 0x202F ||
  n = 0x205F || n = 0x3000 || n = 0xFEFF

/-- `String.prototype.trimStart`. -/
def trimStart (s : Str) : Str := s.dropWhile isWhiteSpace

/-- `String.prototype.trimEnd`. -/
def trimEnd (s : Str) : Str := (s.reverse.dropWhile isWhiteSpace).reverse

/-- `String.prototype.trim`. -/
def trim (s : Str) : Str := trimEnd (trimStart s)

/-- `String.prototype.split(sep)` for a one-character separator: the empty string gives
one empty piece, and `n` separators give `n + 1` pieces. -/
def splitOn (sep : Char) : Str → List Str
  | [] => [[]]
  | c :: cs =>
    if c = sep then [] :: splitOn sep cs
    else match splitOn sep cs with
      | [] => [[c]]
      | p :: ps => (c :: p) :: ps

/-- `Array.prototype.join(sep)` on strings, for a one-character separator. -/
def joinWith (sep : Char) : List Str → Str
  | [] => []
  | [p] => p
  | p :: q :: ps => p ++ sep :: joinWith sep (q :: ps)

/-- `splitTags(text)`: `(text || "").split(",").map(t => t.trim()).filter(Boolean)`.
An absent argument is `none`; the empty string is falsy, so both become `""`. -/
def splitTags (text : Option Str) : List Str :=
  ((splitOn ',' (match text with
      | some (c :: cs) => c :: cs
      | _ => [])).map trim).filter (fun t => !t.isEmpty)

/-- `parseInt(s, 10)`: skip leading white space, read an optional sign, then the longest
run of decimal digits; `none` is `NaN` (no digit to read).  The result is the exact
integer; JavaScript rounds it to a double beyond 2^53. -/
def parseInt (s : Str) : Option Int :=
  let body (neg : Bool) (r : Str) : Option Int :=
    let ds := r.takeWhile Char.isDigit
    if ds.isEmpty then none
    else
      let v : Int := ((ds.foldl (fun acc c => acc * 10 + (c.toNat - 48)) 0 : Nat) : Int)
      some (if neg then -v else v)
  match trimStart s with
  | '-' :: r => body true r
  | '+' :: r => body false r
  | r => body false r

/-- Length of a string in UTF-16 code units, the value of `s.length`. -/
def utf16Length (s : Str) : Nat :=
  (s.map (fun c => if 0x10000 ≤ c.toNat then 2 else 1)).sum

/-! ## Parsed JSON values -/

/-- Values `JSON.parse` can return.  Numbers are integers in this model. -/
inductive JsVal where
  | null
  | bool (b : Bool)
  | num (n : Int)
  | str (s : Str)
  | arr (items : List JsVal)
  | obj (fields : List (Str × JsVal))

/-- First binding of `key` in a property list. -/
def lookupField (key : Str) : List (Str × JsVal) → Option JsVal
  | [] => none
  | (k, v) :: rest => if k = key then some v else lookupField key rest

/-- Property read `v[key]` on a value that is not `null`; `none` is `undefined`.
Objects answer with their own data properties, strings and arrays with `length`.
(No key the script reads names a member inherited from a prototype other than
`length`.) -/
def JsVal.get (v : JsVal) (key : Str) : Option JsVal :=
  match v with
  | .obj fields => lookupField key fields
  | .arr items => if key = "length".toList then some (.num items.length) else none
  | .str s => if key = "length".toList then some (.num (utf16Length s)) else none
  | _ => none

/-- Optional chaining `v?.key` on a parsed value. -/
def JsVal.optGet (v : JsVal) (key : Str) : Option JsVal :=
  match v with
  | .null => none
  | w => w.get key

/-- Optional chaining `v?.key` on a value that may be `undefined`. -/
def optGet (v : Option JsVal) (key : Str) : Option JsVal :=
  match v with
  | none => none
  | some w => w.optGet key

/-- JavaScript truthiness of a parsed value. -/
def JsVal.truthy : JsVal → Bool
  | .null => false
  | .bool b => b
  | .num n => n != 0
  | .str s => !s.isEmpty
  | .arr _ => true
  | .obj _ => true

/-- Truthiness of a value that may be `undefined`. -/
def truthy (v : Option JsVal) : Bool :=
  match v with
  | none => false
  | some w => w.truthy

/-- The operator `a || b`. -/
def jsOr (a b : Option JsVal) : Option JsVal :=
  if truthy a then a else b

/-- The operator `a ?? b` with a defined right operand. -/
def nullish (a : Option JsVal) (b : JsVal) : JsVal :=
  match a with
  | none => b
  | some .null => b
  | some v => v

mutual
/-- `ToString` on a parsed value, as applied by template literals and `new Error(msg)`. -/
def JsVal.toStr : JsVal → Str
  | .null => "null".toList
  | .bool true => "true".toList
  | .bool false => "false".toList
  | .num n => (toString n).toList
  | .str s => s
  | .arr items => joinVals ",".toList items
  | .obj _ => "[object Object]".toList
/-- `Array.prototype.join(sep)`: `null` elements print as the empty string. -/
def joinVals (sep : Str) : List JsVal → Str
  | [] => []
  | [v] => elemStr v
  | v :: w :: vs => elemStr v ++ sep ++ joinVals sep (w :: vs)
/-- One element of a joined array. -/
def elemStr : JsVal → Str
  | .null => []
  | .bool true => "true".toList
  | .bool false => "false".toList
  | .num n => (toString n).toList
  | .str s => s
  | .arr items => joinVals ",".toList items
  | .obj _ => "[object Object]".toList
end

/-! ## Exceptions, requests and the environment -/

/-- Values the script throws or catches: `Error` objects it creates itself and
`TypeError`s raised by the engine or by `fetch`. -/
inductive Thrown where
  | error (message : Str)
  | typeError (message : Str)

/-- The property `e.message`. -/
def Thrown.message : Thrown → Str
  | .error m => m
  | .typeError m => m

/-- The expression `new Error(msg)`: an absent message is the empty string. -/
def newError (msg : Option JsVal) : Thrown :=
  match msg with
  | none => .error []
  | some v => .error v.toStr

inductive Method where
  | GET
  | POST
  deriving DecidableEq

/-- The object handed to `JSON.stringify` for a request body.  In `forecast`, `days`
is the result of `parseInt`, `none` being `NaN`. -/
inductive Body where
  | comment (name : Str) (comment : Str) (state : Option Str) (tags : List Str)
  | eda (state : Str)
  | forecast (state : Str) (days : Option Int)
  deriving DecidableEq

/-- Arguments of one `fetch(url, options)` call. -/
structure Request where
  url : Str
  method : Method
  jsonContentType : Bool
  body : Option Body
  deriving DecidableEq

/-- What `fetch` does with a request: it rejects, or it resolves to a response with a
status code whose `text()` yields the body or rejects (`none`). -/
inductive NetOutcome where
  | reject (message : Str)
  | response (status : Nat) (body : Option Str)

/-- The property `res.ok`: the status is in the range 200-299. -/
def resOk (status : Nat) : Bool := 200 ≤ status && status ≤ 299

/-- Everything outside the script that a handler run depends on: the network, the
platform functions `JSON.parse` (`none` when it throws) and `encodeURIComponent`, the
clock, and the message text the engine puts in a `TypeError` for a failing expression. -/
structure Env where
  net : Request → NetOutcome
  jsonParse : Str → Option JsVal
  encodeURIComponent : Str → Str
  now : Nat
  typeErrorMessage : Str → Str

/-! ## The page -/

/-- Severity passed to `setStatus` as its `type` argument. -/
inductive Severity where
  | info
  | warn
  | success
  | error
  deriving DecidableEq

/-- Elements the script addresses, named by their ids; `submitBtn` is
`commentForm.querySelector("button[type=submit]")`. -/
inductive Elem where
  | status
  | loadStateBtn | stateInput
  | loadUsBtn
  | submitBtn | userInput | textInput | commentStateInput | tagsInput
  | refreshCommentsBtn | filterStateInput | commentsList
  | runEdaBtn | edaState | edaCasesFrame | edaDeathsFrame
  | openCasesHtmlBtn | openDeathsHtmlBtn | downloadCsvBtn
  | runFcBtn | fcState | fcDays | forecastFrame | openForecastBtn
  deriving DecidableEq

/-- One trace object handed to `Plotly.newPlot`. -/
structure Trace where
  x : List (Option JsVal)
  y : List JsVal
  type : Str
  mode : Str
  name : Str

/-- The layout object handed to `Plotly.newPlot`. -/
structure Layout where
  title : Str
  margin : Nat × Nat × Nat × Nat
  xaxisTitle : Str
  xaxisType : Str
  yaxisTitle : Str

/-- Text interpolated into the markup of one comment list item. -/
structure CommentMarkup where
  name : Str
  state : Str
  tags : Option Str
  body : Str

/-- Calls and property writes a handler performs, in program order. -/
inductive Event where
  | preventDefault
  | disable (el : Elem) (isOn : Bool)
  | setStatus (msg : Str) (type : Severity)
  | fetch (req : Request)
  | newPlot (containerId : Str) (traces : List Trace) (layout : Layout)
  | setTimeout
  | setValue (el : Elem) (v : Str)
  | setSrc (el : Elem) (url : Str)
  | setDisabled (el : Elem) (b : Bool)
  | setOnclick (el : Elem) (url : Option JsVal)
  | clearList
  | appendChild (li : CommentMarkup)
  | consoleError (e : Thrown)

/-- State of the page: which elements exist, the input values, the controls, the status
box, the frames, the comment list, and the number of pending auto-clear timers. -/
structure Dom where
  has : Elem → Bool
  value : Elem → Str
  disabled : Elem → Bool
  isLoading : Elem → Bool
  statusHidden : Bool
  statusText : Str
  statusClass : Severity
  src : Elem → Option Str
  onclick : Elem → Option (Option JsVal)
  listItems : List CommentMarkup
  timers : Nat

/-- Point update of a per-element attribute. -/
def setAt {α : Type} (f : Elem → α) (el : Elem) (a : α) : Elem → α :=
  fun e => if e = el then a else f e

/-- `setStatus(msg, type)`: nothing when the status box is absent. -/
def setStatus (msg : Str) (type : Severity) (d : Dom) : Dom :=
  if !d.has .status then d
  else { d with statusHidden := msg.isEmpty, statusText := msg, statusClass := type }

/-- `disable(el, on)`, with `isOn` for `on`: nothing when the element is absent. -/
def disable (el : Elem) (isOn : Bool) (d : Dom) : Dom :=
  if !d.has el then d
  else { d with disabled := setAt d.disabled el isOn, isLoading := setAt d.isLoading el isOn }

/-- Effect of one call on the page.  `setTimeout` registers the auto-clear callback;
`Plotly.newPlot`, `fetch` and `console.error` leave the page state as it is. -/
def applyEvent (e : Event) (d : Dom) : Dom :=
  match e with
  | .disable el isOn => disable el isOn d
  | .setStatus msg type => setStatus msg type d
  | .setTimeout => { d with timers := d.timers + 1 }
  | .setValue el v => { d with value := setAt d.value el v }
  | .setSrc el url => { d with src := setAt d.src el (some url) }
  | .setDisabled el b => { d with disabled := setAt d.disabled el b }
  | .setOnclick el url => { d with onclick := setAt d.onclick el (some url) }
  | .clearList => { d with listItems := [] }
  | .appendChild li => { d with listItems := d.listItems ++ [li] }
  | _ => d

/-- Effect of a sequence of calls, first to last. -/
def replay (es : List Event) (d : Dom) : Dom :=
  es.foldl (fun acc e => applyEvent e acc) d

/-- The timer callback `() => setStatus("", "info")` of the oldest pending timer. -/
def fireTimer (d : Dom) : Dom :=
  if d.timers = 0 then d
  else setStatus [] .info { d with timers := d.timers - 1 }

/-- The expression `$(id)?.value`. -/
def inputValue (d : Dom) (el : Elem) : Option Str :=
  if d.has el then some (d.value el) else none

/-- The expression `v || fallback` on a string that may be `undefined`. -/
def strOr (v : Option Str) (fallback : Str) : Str :=
  match v with
  | some (c :: cs) => c :: cs
  | _ => fallback

/-! ## Handler runs -/

/-- A run of script code up to its completion: the calls made, in order, and the value
returned or the exception thrown. -/
structure M (α : Type) where
  trace : List Event
  result : Except Thrown α

/-- Sequencing: the second part runs only when the first returned. -/
def M.bind {α β : Type} (m : M α) (f : α → M β) : M β :=
  match m.result with
  | .ok a => ⟨m.trace ++ (f a).trace, (f a).result⟩
  | .error e => ⟨m.trace, .error e⟩

instance : Monad M where
  pure a := ⟨[], .ok a⟩
  bind := M.bind

/-- Perform one call. -/
def emit (e : Event) : M Unit := ⟨[e], .ok ()⟩

/-- The statement `throw e`. -/
def raise {α : Type} (e : Thrown) : M α := ⟨[], .error e⟩

/-- An expression that evaluates without calls but may throw. -/
def liftE {α : Type} (r : Except Thrown α) : M α := ⟨[], r⟩

/-- The statement `try { body } catch (e) { handler e } finally { fin }`. -/
def tryCatchFinally (body : M Unit) (handler : Thrown → M Unit) (fin : M Unit) : M Unit :=
  let caught : M Unit :=
    match body.result with
    | .ok _ => body
    | .error e => ⟨body.trace ++ (handler e).trace, (handler e).result⟩
  match fin.result with
  | .ok _ => ⟨caught.trace ++ fin.trace, caught.result⟩
  | .error e => ⟨caught.trace ++ fin.trace, .error e⟩

/-- A `fetch(url)` call with default options. -/
def getReq (url : Str) : Request := ⟨url, .GET, false, none⟩

/-- A `fetch(url, options)` call with method POST, a JSON content type and a body. -/
def postJson (url : Str) (body : Body) : Request := ⟨url, .POST, true, some body⟩

/-- The `data` that `fetchJSON` computes from the body read: the text is empty when the
read fails; `data` is `null` for empty text, else the parsed text, else the raw text. -/
def parsedBody (env : Env) (body : Option Str) : JsVal :=
  let text : Str :=
    match body with
    | some t => t
    | none => []
  if text.isEmpty then .null
  else
    match env.jsonParse text with
    | some v => v
    | none => .str text

/-- The expression ``data?.detail || data?.error || `HTTP ${res.status}` ``. -/
def errorValue (data : JsVal) (status : Nat) : Option JsVal :=
  jsOr (jsOr (data.optGet "detail".toList) (data.optGet "error".toList))
    (some (.str ("HTTP ".toList ++ (toString status).toList)))

/-- `fetchJSON(url, options)`.  A rejected `fetch` propagates to the caller. -/
def fetchJSON (env : Env) (req : Request) : M JsVal := do
  emit (.fetch req)
  match env.net req with
  | .reject message => raise (.typeError message)
  | .response status body =>
    let data := parsedBody env body
    if !resOk status then
      raise (newError (errorValue data status))
    else
      pure data

/-- Member read `v.key`: a `TypeError` on `null`. -/
def member (env : Env) (expr : Str) (v : JsVal) (key : Str) : Except Thrown (Option JsVal) :=
  match v with
  | .null => .error (.typeError (env.typeErrorMessage expr))
  | w => .ok (w.get key)

/-- `Array.prototype.map` with a callback that may throw. -/
def mapRows {β : Type} (f : JsVal → Except Thrown β) : List JsVal → Except Thrown (List β)
  | [] => .ok []
  | r :: rs =>
    match f r with
    | .error e => .error e
    | .ok b =>
      match mapRows f rs with
      | .error e => .error e
      | .ok bs => .ok (b :: bs)

/-- `plotSeries(containerId, rows, yKey, maKey, title)`.  `rows.map` exists on arrays
only; the chart receives two traces over the same `x`. -/
def plotSeries (env : Env) (containerId : Str) (rows : JsVal) (yKey maKey title : Str) :
    M Unit :=
  match rows with
  | .arr items => do
    let x ← liftE (mapRows (fun r => member env "r.date".toList r "date".toList) items)
    let y ← liftE (mapRows
      (fun r => (member env "r[yKey]".toList r yKey).map (fun v => nullish v (.num 0))) items)
    let ma ← liftE (mapRows
      (fun r => (member env "r[maKey]".toList r maKey).map (fun v => nullish v (.num 0))) items)
    emit (.newPlot containerId
      [ ⟨x, y, "scatter".toList, "lines".toList, "Daily".toList⟩,
        ⟨x, ma, "scatter".toList, "lines".toList, "7-day MA".toList⟩ ]
      ⟨title, (36, 12, 48, 40), "Date".toList, "date".toList, "Count".toList⟩)
  | _ => raise (.typeError (env.typeErrorMessage "rows.map".toList))

/-- A property write `$(id).prop = v`: a `TypeError` when the element is absent. -/
def writeTo (env : Env) (dom : Dom) (el : Elem) (expr : Str) (e : Event) : M Unit :=
  if dom.has el then emit e else raise (.typeError (env.typeErrorMessage expr))

/-- The statement `if (c) stmt;`. -/
def whenJs (c : Bool) (stmt : M Unit) : M Unit :=
  if c then stmt else pure ()

/-- The `catch` block shared by the handlers: `console.error(e)` and an error status
made of the action context and `e.message`. -/
def failWith (context : Str) (e : Thrown) : M Unit := do
  emit (.consoleError e)
  emit (.setStatus (context ++ e.message) .error)

/-- `loadStateData()`. -/
def loadStateData (env : Env) (dom : Dom) : M Unit :=
  let state := trim (strOr (inputValue dom .stateInput) [])
  if state.isEmpty then
    emit (.setStatus "Please enter a state (e.g., New York).".toList .warn)
  else do
    emit (.disable .loadStateBtn true)
    emit (.setStatus ("Loading ".toList ++ state ++ "…".toList) .info)
    tryCatchFinally
      (do
        let rows ← fetchJSON env (getReq ("/cases?state=".toList ++ env.encodeURIComponent state))
        if !truthy (rows.optGet "length".toList) then
          raise (newError (some (.str "Empty result".toList)))
        else do
          plotSeries env "casesChart".toList rows "new_cases".toList "ma7_new_cases".toList
            ("New Cases — ".toList ++ state)
          plotSeries env "deathsChart".toList rows "new_deaths".toList "ma7_new_deaths".toList
            ("New Deaths — ".toList ++ state)
          emit (.setStatus ("Loaded: ".toList ++ state) .success)
          emit .setTimeout)
      (failWith ("Failed to load ".toList ++ state ++ ": ".toList))
      (emit (.disable .loadStateBtn false))

/-- `loadUsData()`. -/
def loadUsData (env : Env) (_dom : Dom) : M Unit := do
  emit (.disable .loadUsBtn true)
  emit (.setStatus "Loading USA…".toList .info)
  tryCatchFinally
    (do
      let rows ← fetchJSON env (getReq "/cases/us".toList)
      if !truthy (rows.optGet "length".toList) then
        raise (newError (some (.str "Empty result".toList)))
      else do
        plotSeries env "casesChart".toList rows "new_cases".toList "ma7_new_cases".toList
          "New Cases — USA".toList
        plotSeries env "deathsChart".toList rows "new_deaths".toList "ma7_new_deaths".toList
          "New Deaths — USA".toList
        emit (.setStatus "Loaded: USA".toList .success)
        emit .setTimeout)
    (failWith "Failed to load USA: ".toList)
    (emit (.disable .loadUsBtn false))

/-- Text interpolated into the `li` markup for one item: `it.name ?? "Anonymous"`,
`it.state ?? "—"`, the joined tags when `it.tags` is a non-empty array, and
`(it.comment ?? "").toString()`.  Reading a member of `null` throws. -/
def commentMarkup (env : Env) (it : JsVal) : Except Thrown CommentMarkup :=
  match it with
  | .null => .error (.typeError (env.typeErrorMessage "it.name".toList))
  | w =>
    .ok
      { name := (nullish (w.get "name".toList) (.str "Anonymous".toList)).toStr
        state := (nullish (w.get "state".toList) (.str "—".toList)).toStr
        tags :=
          match w.get "tags".toList with
          | some (.arr (t :: ts)) => some (joinVals ", ".toList (t :: ts))
          | _ => none
        body := (nullish (w.get "comment".toList) (.str [])).toStr }

/-- The loop `for (const it of items) { ...; ul.appendChild(li) }`. -/
def appendComments (env : Env) : List JsVal → M Unit
  | [] => pure ()
  | it :: rest => do
    let li ← liftE (commentMarkup env it)
    emit (.appendChild li)
    appendComments env rest

/-- `loadComments()`.  `for ... of` iterates arrays and strings (character by
character) and throws on any other value. -/
def loadComments (env : Env) (dom : Dom) : M Unit := do
  emit (.disable .refreshCommentsBtn true)
  tryCatchFinally
    (do
      let st := trim (strOr (inputValue dom .filterStateInput) [])
      let url :=
        if st.isEmpty then "/comments".toList
        else "/comments?state=".toList ++ env.encodeURIComponent st
      let items ← fetchJSON env (getReq url)
      writeTo env dom .commentsList "ul.innerHTML".toList .clearList
      match items with
      | .arr xs => appendComments env xs
      | .str s => appendComments env (s.map (fun c => .str [c]))
      | _ => raise (.typeError (env.typeErrorMessage "items".toList)))
    (failWith "Failed to load comments: ".toList)
    (emit (.disable .refreshCommentsBtn false))

/-- `onPostComment(ev)`. -/
def onPostComment (env : Env) (dom : Dom) : M Unit := do
  emit .preventDefault
  emit (.disable .submitBtn true)
  emit (.setStatus "Posting comment…".toList .info)
  let name := strOr ((inputValue dom .userInput).map trim) "Anonymous".toList
  let comment := strOr ((inputValue dom .textInput).map trim) []
  let state : Option Str :=
    match trim (strOr (inputValue dom .commentStateInput) []) with
    | [] => none
    | c :: cs => some (c :: cs)
  let tags := splitTags (some (strOr (inputValue dom .tagsInput) []))
  if comment.isEmpty then do
    emit (.setStatus "Comment text is required.".toList .warn)
    emit (.disable .submitBtn false)
  else
    tryCatchFinally
      (do
        let _ ← fetchJSON env (postJson "/comments".toList (.comment name comment state tags))
        writeTo env dom .textInput "textInput.value".toList (.setValue .textInput [])
        writeTo env dom .tagsInput "tagsInput.value".toList (.setValue .tagsInput [])
        emit (.setStatus "Comment posted.".toList .success)
        loadComments env dom
        emit .setTimeout)
      (failWith "Failed to post: ".toList)
      (emit (.disable .submitBtn false))

/-- The template literal `${url}?t=${Date.now()}`. -/
def cacheBusted (env : Env) (url : Option JsVal) : Str :=
  (match url with
    | some v => v.toStr
    | none => "undefined".toList) ++ "?t=".toList ++ (toString env.now).toList

/-- The body `{ state }` that `runEda()` submits. -/
def edaBody (dom : Dom) : Body :=
  let state := strOr (some (trim (strOr (inputValue dom .edaState) []))) "California".toList
  .eda state

/-- `runEda()`. -/
def runEda (env : Env) (dom : Dom) : M Unit := do
  emit (.disable .runEdaBtn true)
  emit (.setStatus "Running EDA… first run may take longer.".toList .info)
  tryCatchFinally
    (do
      let data ← fetchJSON env (postJson "/eda".toList (edaBody dom))
      if !truthy (data.optGet "ok".toList) then
        raise (newError (jsOr (data.optGet "error".toList) (some (.str "EDA failed".toList))))
      else do
        let urls ← liftE (member env "data.urls".toList data "urls".toList)
        let casesUrl := optGet urls "daily_cases_html".toList
        let deathsUrl := optGet urls "daily_deaths_html".toList
        let csvUrl := optGet urls "csv".toList
        whenJs (truthy casesUrl)
          (writeTo env dom .edaCasesFrame "edaCasesFrame.src".toList
            (.setSrc .edaCasesFrame (cacheBusted env casesUrl)))
        whenJs (truthy deathsUrl)
          (writeTo env dom .edaDeathsFrame "edaDeathsFrame.src".toList
            (.setSrc .edaDeathsFrame (cacheBusted env deathsUrl)))
        writeTo env dom .openCasesHtmlBtn "openCasesBtn.disabled".toList
          (.setDisabled .openCasesHtmlBtn (!truthy casesUrl))
        writeTo env dom .openDeathsHtmlBtn "openDeathsBtn.disabled".toList
          (.setDisabled .openDeathsHtmlBtn (!truthy deathsUrl))
        writeTo env dom .downloadCsvBtn "downloadCsvBtn.disabled".toList
          (.setDisabled .downloadCsvBtn (!truthy csvUrl))
        writeTo env dom .openCasesHtmlBtn "openCasesBtn.onclick".toList
          (.setOnclick .openCasesHtmlBtn casesUrl)
        writeTo env dom .openDeathsHtmlBtn "openDeathsBtn.onclick".toList
          (.setOnclick .openDeathsHtmlBtn deathsUrl)
        writeTo env dom .downloadCsvBtn "downloadCsvBtn.onclick".toList
          (.setOnclick .downloadCsvBtn csvUrl)
        emit (.setStatus "EDA ready.".toList .success)
        emit .setTimeout)
    (failWith "EDA failed: ".toList)
    (emit (.disable .runEdaBtn false))

/-- The body `{ state, days }` that `runForecast()` submits. -/
def forecastBody (dom : Dom) : Body :=
  let state := strOr (some (trim (strOr (inputValue dom .fcState) []))) "California".toList
  let days := parseInt (strOr (inputValue dom .fcDays) "30".toList)
  .forecast state days

/-- `runForecast()`. -/
def runForecast (env : Env) (dom : Dom) : M Unit := do
  emit (.disable .runFcBtn true)
  emit (.setStatus "Building forecast…".toList .info)
  tryCatchFinally
    (do
      let data ← fetchJSON env (postJson "/forecast".toList (forecastBody dom))
      if !truthy (data.optGet "ok".toList) then
        raise (newError (jsOr (data.optGet "error".toList) (some (.str "Forecast failed".toList))))
      else do
        let url ← liftE (member env "data.url".toList data "url".toList)
        whenJs (truthy url)
          (writeTo env dom .forecastFrame "forecastFrame.src".toList
            (.setSrc .forecastFrame (cacheBusted env url)))
        writeTo env dom .openForecastBtn "openBtn.disabled".toList
          (.setDisabled .openForecastBtn (!truthy url))
        writeTo env dom .openForecastBtn "openBtn.onclick".toList
          (.setOnclick .openForecastBtn url)
        emit (.setStatus "Forecast ready.".toList .success)
        emit .setTimeout)
    (failWith "Forecast failed: ".toList)
    (emit (.disable .runFcBtn false))

/-- The six handlers bound to user actions. -/
inductive Orchestrator where
  | loadStateData
  | loadUsData
  | onPostComment
  | loadComments
  | runEda
  | runForecast
  deriving DecidableEq

/-- One invocation of a handler, from the event to the end of its last step. -/
def Orchestrator.invoke (o : Orchestrator) (env : Env) (dom : Dom) : M Unit :=
  match o with
  | .loadStateData => App.loadStateData env dom
  | .loadUsData => App.loadUsData env dom
  | .onPostComment => App.onPostComment env dom
  | .loadComments => App.loadComments env dom
  | .runEda => App.runEda env dom
  | .runForecast => App.runForecast env dom

/-- The control a handler guards with `disable(control, true)` / `disable(control, false)`. -/
def Orchestrator.trigger : Orchestrator → Elem
  | .loadStateData => .loadStateBtn
  | .loadUsData => .loadUsBtn
  | .onPostComment => .submitBtn
  | .loadComments => .refreshCommentsBtn
  | .runEda => .runEdaBtn
  | .runForecast => .runFcBtn

/-- The page after a handler invocation. -/
def run (o : Orchestrator) (env : Env) (dom : Dom) : Dom :=
  replay (o.invoke env dom).trace dom

/-- What happens next on the page: the user triggers a handler, which runs against some
environment, or the oldest pending auto-clear timer fires. -/
inductive Action where
  | invoke (o : Orchestrator) (env : Env)
  | timer

/-- The page after one action. -/
def step (dom : Dom) : Action → Dom
  | .invoke o env => run o env dom
  | .timer => fireTimer dom

/-- The page after a sequence of actions. -/
def steps (dom : Dom) (as : List Action) : Dom :=
  as.foldl step dom

/-! ## Observations on traces -/

/-- The guard calls `disable(el, b)` of a trace, in order. -/
def guardOps : List Event → List (Elem × Bool)
  | [] => []
  | .disable el b :: rest => (el, b) :: guardOps rest
  | _ :: rest => guardOps rest

/-- Whether an event is the call `disable(el, b)`. -/
def isGuardCall (el : Elem) (b : Bool) : Event → Bool
  | .disable e c => decide (e = el) && decide (c = b)
  | _ => false

/-- Whether an event is a network call. -/
def isFetch : Event → Bool
  | .fetch _ => true
  | _ => false

/-- Whether an event schedules the auto-clear timer. -/
def isSetTimeout : Event → Bool
  | .setTimeout => true
  | _ => false

/-- Whether an event is a `setStatus` call. -/
def isSetStatus : Event → Bool
  | .setStatus _ _ => true
  | _ => false

/-- Whether an event announces a `success` status. -/
def isSuccessStatus : Event → Bool
  | .setStatus _ .success => true
  | _ => false

/-- Whether an event embeds a document or writes the `disabled` property of a control. -/
def isDerivedWrite : Event → Bool
  | .setSrc _ _ => true
  | .setDisabled _ _ => true
  | .setOnclick _ _ => true
  | _ => false

/-- Every acquire in a list of guard calls has a release of the same control after it. -/
def closedOps : List (Elem × Bool) → Bool
  | [] => true
  | (el, true) :: rest => rest.contains (el, false) && closedOps rest
  | (_, false) :: rest => closedOps rest

/-- The status box as the user sees it: hidden flag, text and severity class. -/
def Dom.status (d : Dom) : Bool × Str × Severity :=
  (d.statusHidden, d.statusText, d.statusClass)

/-- A run that makes no guard call. -/
def Quiet {α : Type} (m : M α) : Prop := guardOps m.trace = []

/-- The error message as the specification words it: the `detail` field when the body
has one, otherwise the `error` field when the body has one, otherwise `HTTP <status>`. -/
def specErrorMessage (data : JsVal) (status : Nat) : Str :=
  match data.optGet "detail".toList with
  | some d => d.toStr
  | none =>
    match data.optGet "error".toList with
    | some e => e.toStr
    | none => "HTTP ".toList ++ (toString status).toList

/-! ## Concrete pages and environments -/

/-- A page on which every element exists, the inputs are empty, no trigger control is
busy, the derived open and download controls are disabled, and no status is shown. -/
def freshDom : Dom :=
  { has := fun _ => true
    value := fun _ => []
    disabled := fun el =>
      decide (el = .openCasesHtmlBtn) || decide (el = .openDeathsHtmlBtn) ||
      decide (el = .downloadCsvBtn) || decide (el = .openForecastBtn)
    isLoading := fun _ => false
    statusHidden := true
    statusText := []
    statusClass := .info
    src := fun _ => none
    onclick := fun _ => none
    listItems := []
    timers := 0 }

/-- The fresh page with one input filled in. -/
def withInput (el : Elem) (v : Str) : Dom :=
  { freshDom with value := setAt freshDom.value el v }

/-- An environment in which every request gets the same outcome and every body text
parses to the same result. -/
def constEnv (out : NetOutcome) (parsed : Option JsVal) : Env :=
  { net := fun _ => out
    jsonParse := fun _ => parsed
    encodeURIComponent := fun s => s
    now := 0
    typeErrorMessage := fun expr => expr }

/-- A backend that answers every request with status 500 and an empty body. -/
def envDown : Env := constEnv (.response 500 (some [])) none

/-- The two rows of scenario 1. -/
def scenarioRows : List (List (Str × JsVal)) :=
  [ [("date".toList, .str "2021-01-01".toList), ("new_cases".toList, .num 10),
      ("ma7_new_cases".toList, .num 8)],
    [("date".toList, .str "2021-01-02".toList), ("new_cases".toList, .num 12),
      ("ma7_new_cases".toList, .num 9)] ]

/-- A backend that answers every request with status 200 and the rows of scenario 1. -/
def envRows : Env :=
  constEnv (.response 200 (some "[...]".toList)) (some (.arr (scenarioRows.map .obj)))

/-- An error body whose `detail` is the empty string and whose `error` is `boom`. -/
def emptyDetail : JsVal :=
  .obj [("detail".toList, .str []), ("error".toList, .str "boom".toList)]

/-- A backend that answers every request with status 500 and the body `emptyDetail`. -/
def envEmptyDetail : Env := constEnv (.response 500 (some "...".toList)) (some emptyDetail)

/-- A job result `{ok: false, error: e}`. -/
def jobFailure (e : Str) : JsVal :=
  .obj [("ok".toList, .bool false), ("error".toList, .str e)]

/-- A backend whose EDA job fails for lack of data. -/
def envEdaFails : Env :=
  constEnv (.response 200 (some "...".toList)) (some (jobFailure "insufficient data".toList))

/-- A backend whose EDA job succeeds with all three output URLs. -/
def envEdaReady : Env :=
  constEnv (.response 200 (some "...".toList))
    (some (.obj [("ok".toList, .bool true),
      ("urls".toList, .obj [("daily_cases_html".toList, .str "/c.html".toList),
        ("daily_deaths_html".toList, .str "/d.html".toList),
        ("csv".toList, .str "/e.csv".toList)])]))

/-- A backend that accepts the comment POST and fails the comment list GET. -/
def envRefreshFails : Env :=
  { constEnv (.response 200 none) none with
    net := fun r => if r.method = .POST then .response 200 none else .response 503 none }

/-- Whether an event announces success or schedules the auto-clear timer. -/
def marksSuccess (e : Event) : Bool :=
  isSuccessStatus e || isSetTimeout e

/-- A run none of whose calls satisfies `p`. -/
def Avoids {α : Type} (p : Event → Bool) (m : M α) : Prop :=
  ∀ e ∈ m.trace, p e = false

/-- A run that either neither announces success nor schedules the timer, or returns
right after scheduling the timer, having announced success once before. -/
def EndsWithTimer (m : M Unit) : Prop :=
  Avoids marksSuccess m ∨
  ∃ pre : List Event, m.trace = pre ++ [.setTimeout] ∧ m.result = .ok () ∧
    pre.countP isSetTimeout = 0 ∧ pre.countP isSuccessStatus = 1

/-- Timer discipline of a trace with trigger control `el`: as many timers scheduled as
success announcements, at most one, and a scheduled timer is the last call but one,
followed only by the release of the trigger. -/
def TimerDiscipline (t : List Event) (el : Elem) : Prop :=
  t.countP isSetTimeout = t.countP isSuccessStatus ∧
  t.countP isSetTimeout ≤ 1 ∧
  (t.countP isSetTimeout = 1 → ∃ q : List Event, t = q ++ [.setTimeout, .disable el false])

/-! ## Lemmas on strings -/

theorem splitOn_ne_nil (sep : Char) (s : Str) : splitOn sep s ≠ [] := by
  induction s with
  | nil => simp [splitOn]
  | cons c cs ih =>
    unfold splitOn
    split
    · simp
    · split <;> simp

theorem joinWith_cons_cons (sep : Char) (c : Char) (p : Str) (ps : List Str) :
    joinWith sep ((c :: p) :: ps) = c :: joinWith sep (p :: ps) := by
  cases ps <;> simp [joinWith]

theorem joinWith_splitOn (sep : Char) (s : Str) : joinWith sep (splitOn sep s) = s := by
  induction s with
  | nil => simp [splitOn, joinWith]
  | cons c cs ih =>
    unfold splitOn
    split
    · rename_i h
      cases hs : splitOn sep cs with
      | nil => exact absurd hs (splitOn_ne_nil sep cs)
      | cons q qs =>
        rw [hs] at ih
        simp [joinWith, ih, h]
    · cases hs : splitOn sep cs with
      | nil => exact absurd hs (splitOn_ne_nil sep cs)
      | cons q qs =>
        rw [hs] at ih
        simp only []
        rw [joinWith_cons_cons, ih]

theorem not_mem_of_mem_splitOn (sep : Char) (s : Str) :
    ∀ p ∈ splitOn sep s, sep ∉ p := by
  induction s with
  | nil => simp [splitOn]
  | cons c cs ih =>
    unfold splitOn
    split
    · intro p hp
      rcases List.mem_cons.mp hp with rfl | hp
      · simp
      · exact ih p hp
    · rename_i h
      cases hs : splitOn sep cs with
      | nil => exact absurd hs (splitOn_ne_nil sep cs)
      | cons q qs =>
        rw [hs] at ih
        intro p hp
        simp only [List.mem_cons] at hp
        rcases hp with rfl | hp
        · intro hmem
          rcases List.mem_cons.mp hmem with heq | hq
          · exact h heq.symm
          · exact ih q (List.mem_cons_self _ _) hq
        · exact ih p (List.mem_cons_of_mem _ hp)

theorem dropWhile_decomp (f : Char → Bool) (s : Str) :
    ∃ l, s = l ++ s.dropWhile f ∧ ∀ c ∈ l, f c = true := by
  refine ⟨s.takeWhile f, (List.takeWhile_append_dropWhile f s).symm, ?_⟩
  intro c hc
  exact List.mem_takeWhile_imp hc

theorem head_dropWhile_not (f : Char → Bool) (s : Str) (c : Char)
    (h : (s.dropWhile f).head? = some c) : f c = false := by
  induction s with
  | nil => simp at h
  | cons a as ih =>
    by_cases ha : f a = true
    · rw [List.dropWhile_cons_of_pos ha] at h
      exact ih h
    · rw [List.dropWhile_cons_of_neg ha] at h
      simp at h
      subst h
      simpa using ha

theorem trimStart_decomp (s : Str) :
    ∃ l, s = l ++ trimStart s ∧ ∀ c ∈ l, isWhiteSpace c = true :=
  dropWhile_decomp isWhiteSpace s

theorem trimEnd_decomp (s : Str) :
    ∃ r, s = trimEnd s ++ r ∧ ∀ c ∈ r, isWhiteSpace c = true := by
  obtain ⟨l, hl, hw⟩ := dropWhile_decomp isWhiteSpace s.reverse
  refine ⟨l.reverse, ?_, ?_⟩
  · have := congrArg List.reverse hl
    simpa [trimEnd] using this
  · intro c hc
    exact hw c (List.mem_reverse.mp hc)

theorem trim_decomp (s : Str) :
    ∃ l r, s = l ++ trim s ++ r ∧ (∀ c ∈ l, isWhiteSpace c = true) ∧
      (∀ c ∈ r, isWhiteSpace c = true) := by
  obtain ⟨l, hl, hlw⟩ := trimStart_decomp s
  obtain ⟨r, hr, hrw⟩ := trimEnd_decomp (trimStart s)
  refine ⟨l, r, ?_, hlw, hrw⟩
  unfold trim
  rw [List.append_assoc, ← hr, ← hl]

theorem getLast_trimEnd (s : Str) (c : Char) (h : (trimEnd s).getLast? = some c) :
    isWhiteSpace c = false := by
  unfold trimEnd at h
  rw [List.getLast?_reverse] at h
  exact head_dropWhile_not _ _ _ h

theorem head_trim (s : Str) (c : Char) (h : (trim s).head? = some c) :
    isWhiteSpace c = false := by
  obtain ⟨r, hr, _⟩ := trimEnd_decomp (trimStart s)
  unfold trim at h
  apply head_dropWhile_not isWhiteSpace s c
  show (trimStart s).head? = some c
  rw [hr]
  cases ht : trimEnd (trimStart s) with
  | nil => rw [ht] at h; simp at h
  | cons a as => rw [ht] at h; simpa using h

theorem getLast_trim (s : Str) (c : Char) (h : (trim s).getLast? = some c) :
    isWhiteSpace c = false :=
  getLast_trimEnd _ _ h


/-! ## Lemmas on handler runs -/

@[simp] theorem bind_trace {α β : Type} (m : M α) (f : α → M β) :
    (m >>= f).trace = m.trace ++ (match m.result with
      | .ok a => (f a).trace
      | .error _ => []) := by
  show (M.bind m f).trace = _
  unfold M.bind
  cases m.result <;> simp

@[simp] theorem bind_result {α β : Type} (m : M α) (f : α → M β) :
    (m >>= f).result = (match m.result with
      | .ok a => (f a).result
      | .error e => .error e) := by
  show (M.bind m f).result = _
  unfold M.bind
  cases m.result <;> simp

@[simp] theorem pure_trace {α : Type} (a : α) : (pure a : M α).trace = [] := rfl

@[simp] theorem pure_result {α : Type} (a : α) : (pure a : M α).result = .ok a := rfl

@[simp] theorem emit_trace (e : Event) : (emit e).trace = [e] := rfl

@[simp] theorem emit_result (e : Event) : (emit e).result = .ok () := rfl

@[simp] theorem raise_trace {α : Type} (e : Thrown) : (raise e : M α).trace = [] := rfl

@[simp] theorem raise_result {α : Type} (e : Thrown) : (raise e : M α).result = .error e := rfl

@[simp] theorem liftE_trace {α : Type} (r : Except Thrown α) : (liftE r).trace = [] := rfl

@[simp] theorem liftE_result {α : Type} (r : Except Thrown α) : (liftE r).result = r := rfl

theorem tryCatchFinally_trace (body : M Unit) (handler : Thrown → M Unit) (e : Event) :
    (tryCatchFinally body handler (emit e)).trace =
      body.trace ++ (match body.result with
        | .ok _ => []
        | .error x => (handler x).trace) ++ [e] := by
  unfold tryCatchFinally
  cases body.result <;> simp

theorem tryCatchFinally_result (body : M Unit) (handler : Thrown → M Unit) (e : Event) :
    (tryCatchFinally body handler (emit e)).result =
      (match body.result with
        | .ok u => .ok u
        | .error x => (handler x).result) := by
  unfold tryCatchFinally
  cases h : body.result <;> simp [h]

@[simp] theorem failWith_trace (c : Str) (e : Thrown) :
    (failWith c e).trace = [.consoleError e, .setStatus (c ++ e.message) .error] := by
  simp [failWith]

@[simp] theorem failWith_result (c : Str) (e : Thrown) : (failWith c e).result = .ok () := by
  simp [failWith]

/-! ### Guard calls of the building blocks -/

@[simp] theorem guardOps_nil : guardOps [] = [] := rfl

@[simp] theorem guardOps_append (s t : List Event) :
    guardOps (s ++ t) = guardOps s ++ guardOps t := by
  induction s with
  | nil => rfl
  | cons e s ih => cases e <;> simp [guardOps, ih]

theorem quiet_pure {α : Type} (a : α) : Quiet (pure a : M α) := rfl

theorem quiet_raise {α : Type} (e : Thrown) : Quiet (raise e : M α) := rfl

theorem quiet_liftE {α : Type} (r : Except Thrown α) : Quiet (liftE r) := rfl

theorem quiet_emit (e : Event) (h : ∀ el b, e ≠ .disable el b) : Quiet (emit e) := by
  cases e <;> first | rfl | exact absurd rfl (h _ _)

theorem quiet_bind {α β : Type} (m : M α) (f : α → M β) (hm : Quiet m)
    (hf : ∀ a, Quiet (f a)) : Quiet (m >>= f) := by
  unfold Quiet at *
  rw [bind_trace, guardOps_append, hm]
  cases m.result with
  | ok a => simpa using hf a
  | error e => simp

theorem quiet_ite {α : Type} (c : Prop) [Decidable c] (a b : M α) (ha : Quiet a)
    (hb : Quiet b) : Quiet (if c then a else b) := by
  split <;> assumption

theorem quiet_whenJs (c : Bool) (m : M Unit) (hm : Quiet m) : Quiet (whenJs c m) := by
  unfold whenJs
  split
  · exact hm
  · exact quiet_pure _

theorem quiet_fetchJSON (env : Env) (req : Request) : Quiet (fetchJSON env req) := by
  unfold fetchJSON
  apply quiet_bind
  · exact quiet_emit _ (by intro el b h; cases h)
  · intro _
    split
    · exact quiet_raise _
    · apply quiet_ite
      · exact quiet_raise _
      · exact quiet_pure _

theorem quiet_plotSeries (env : Env) (c : Str) (rows : JsVal) (y ma t : Str) :
    Quiet (plotSeries env c rows y ma t) := by
  unfold plotSeries
  split
  · apply quiet_bind _ _ (quiet_liftE _)
    intro _
    apply quiet_bind _ _ (quiet_liftE _)
    intro _
    apply quiet_bind _ _ (quiet_liftE _)
    intro _
    exact quiet_emit _ (by intro el b h; cases h)
  · exact quiet_raise _

theorem quiet_writeTo (env : Env) (dom : Dom) (el : Elem) (expr : Str) (e : Event)
    (h : ∀ el b, e ≠ .disable el b) : Quiet (writeTo env dom el expr e) := by
  unfold writeTo
  split
  · exact quiet_emit _ h
  · exact quiet_raise _

theorem quiet_failWith (c : Str) (e : Thrown) : Quiet (failWith c e) := by
  unfold Quiet
  simp [guardOps]

theorem quiet_appendComments (env : Env) (items : List JsVal) :
    Quiet (appendComments env items) := by
  induction items with
  | nil => exact quiet_pure _
  | cons it rest ih =>
    unfold appendComments
    apply quiet_bind _ _ (quiet_liftE _)
    intro _
    apply quiet_bind _ _ (quiet_emit _ (by intro el b h; cases h))
    intro _
    exact ih

/-- A guarded block whose body and handler make no guard call releases once. -/
theorem guardOps_tryCatchFinally (body : M Unit) (handler : Thrown → M Unit) (el : Elem)
    (b : Bool) (hb : Quiet body) (hh : ∀ e, Quiet (handler e)) :
    guardOps (tryCatchFinally body handler (emit (.disable el b))).trace = [(el, b)] := by
  rw [tryCatchFinally_trace]
  simp only [guardOps_append]
  have hb2 : guardOps body.trace = [] := hb
  rw [hb2]
  cases body.result with
  | ok u => simp [guardOps]
  | error x =>
    have := hh x
    unfold Quiet at this
    simp [guardOps, this]


/-! ### Guard calls of the six handlers -/

theorem quiet_loadBody (env : Env) (req : Request) (t1 t2 ok : Str) :
    Quiet (do
      let rows ← fetchJSON env req
      if !truthy (rows.optGet "length".toList) then
        raise (newError (some (.str "Empty result".toList)))
      else do
        plotSeries env "casesChart".toList rows "new_cases".toList "ma7_new_cases".toList t1
        plotSeries env "deathsChart".toList rows "new_deaths".toList "ma7_new_deaths".toList t2
        emit (.setStatus ok .success)
        emit .setTimeout : M Unit) := by
  apply quiet_bind _ _ (quiet_fetchJSON _ _)
  intro rows
  apply quiet_ite
  · exact quiet_raise _
  · apply quiet_bind _ _ (quiet_plotSeries _ _ _ _ _ _)
    intro _
    apply quiet_bind _ _ (quiet_plotSeries _ _ _ _ _ _)
    intro _
    apply quiet_bind _ _ (quiet_emit _ (by intro el b h; cases h))
    intro _
    exact quiet_emit _ (by intro el b h; cases h)

theorem guardOps_loadUsData (env : Env) (dom : Dom) :
    guardOps (loadUsData env dom).trace = [(.loadUsBtn, true), (.loadUsBtn, false)] := by
  unfold loadUsData
  simp only [bind_trace, emit_trace, emit_result, guardOps_append]
  rw [guardOps_tryCatchFinally _ _ _ _ (quiet_loadBody _ _ _ _ _) (fun e => quiet_failWith _ e)]
  rfl

theorem guardOps_loadStateData (env : Env) (dom : Dom) :
    guardOps (loadStateData env dom).trace =
      if trim (strOr (inputValue dom .stateInput) []) = [] then []
      else [(.loadStateBtn, true), (.loadStateBtn, false)] := by
  unfold loadStateData
  by_cases h : trim (strOr (inputValue dom .stateInput) []) = []
  · simp [h, guardOps]
  · simp only [h, List.isEmpty_iff, if_false]
    simp only [bind_trace, emit_trace, emit_result, guardOps_append]
    rw [guardOps_tryCatchFinally _ _ _ _ (quiet_loadBody _ _ _ _ _) (fun e => quiet_failWith _ e)]
    rfl

theorem quiet_loadCommentsBody (env : Env) (dom : Dom) :
    Quiet (do
      let st := trim (strOr (inputValue dom .filterStateInput) [])
      let url :=
        if st.isEmpty then "/comments".toList
        else "/comments?state=".toList ++ env.encodeURIComponent st
      let items ← fetchJSON env (getReq url)
      writeTo env dom .commentsList "ul.innerHTML".toList .clearList
      match items with
      | .arr xs => appendComments env xs
      | .str s => appendComments env (s.map (fun c => .str [c]))
      | _ => raise (.typeError (env.typeErrorMessage "items".toList)) : M Unit) := by
  apply quiet_bind _ _ (quiet_fetchJSON _ _)
  intro items
  apply quiet_bind _ _ (quiet_writeTo _ _ _ _ _ (by intro el b h; cases h))
  intro _
  split
  · exact quiet_appendComments _ _
  · exact quiet_appendComments _ _
  · exact quiet_raise _

theorem guardOps_loadComments (env : Env) (dom : Dom) :
    guardOps (loadComments env dom).trace =
      [(.refreshCommentsBtn, true), (.refreshCommentsBtn, false)] := by
  unfold loadComments
  simp only [bind_trace, emit_trace, emit_result, guardOps_append]
  rw [guardOps_tryCatchFinally _ _ _ _ (quiet_loadCommentsBody _ _) (fun e => quiet_failWith _ e)]
  rfl

theorem loadComments_result (env : Env) (dom : Dom) :
    (loadComments env dom).result = .ok () := by
  unfold loadComments
  simp only [bind_result, emit_result, tryCatchFinally_result, failWith_result]
  split <;> rfl


theorem guardOps_runEda (env : Env) (dom : Dom) :
    guardOps (runEda env dom).trace = [(.runEdaBtn, true), (.runEdaBtn, false)] := by
  unfold runEda
  simp only [bind_trace, emit_trace, emit_result, guardOps_append]
  rw [guardOps_tryCatchFinally _ _ _ _ _ (fun e => quiet_failWith _ e)]
  · rfl
  · apply quiet_bind _ _ (quiet_fetchJSON _ _)
    intro data
    apply quiet_ite
    · exact quiet_raise _
    · apply quiet_bind _ _ (quiet_liftE _)
      intro urls
      apply quiet_bind _ _
        (quiet_whenJs _ _ (quiet_writeTo _ _ _ _ _ (by intro el b h; cases h)))
      intro _
      apply quiet_bind _ _
        (quiet_whenJs _ _ (quiet_writeTo _ _ _ _ _ (by intro el b h; cases h)))
      intro _
      apply quiet_bind _ _ (quiet_writeTo _ _ _ _ _ (by intro el b h; cases h))
      intro _
      apply quiet_bind _ _ (quiet_writeTo _ _ _ _ _ (by intro el b h; cases h))
      intro _
      apply quiet_bind _ _ (quiet_writeTo _ _ _ _ _ (by intro el b h; cases h))
      intro _
      apply quiet_bind _ _ (quiet_writeTo _ _ _ _ _ (by intro el b h; cases h))
      intro _
      apply quiet_bind _ _ (quiet_writeTo _ _ _ _ _ (by intro el b h; cases h))
      intro _
      apply quiet_bind _ _ (quiet_writeTo _ _ _ _ _ (by intro el b h; cases h))
      intro _
      apply quiet_bind _ _ (quiet_emit _ (by intro el b h; cases h))
      intro _
      exact quiet_emit _ (by intro el b h; cases h)

theorem guardOps_runForecast (env : Env) (dom : Dom) :
    guardOps (runForecast env dom).trace = [(.runFcBtn, true), (.runFcBtn, false)] := by
  unfold runForecast
  simp only [bind_trace, emit_trace, emit_result, guardOps_append]
  rw [guardOps_tryCatchFinally _ _ _ _ _ (fun e => quiet_failWith _ e)]
  · rfl
  · apply quiet_bind _ _ (quiet_fetchJSON _ _)
    intro data
    apply quiet_ite
    · exact quiet_raise _
    · apply quiet_bind _ _ (quiet_liftE _)
      intro url
      apply quiet_bind _ _
        (quiet_whenJs _ _ (quiet_writeTo _ _ _ _ _ (by intro el b h; cases h)))
      intro _
      apply quiet_bind _ _ (quiet_writeTo _ _ _ _ _ (by intro el b h; cases h))
      intro _
      apply quiet_bind _ _ (quiet_writeTo _ _ _ _ _ (by intro el b h; cases h))
      intro _
      apply quiet_bind _ _ (quiet_emit _ (by intro el b h; cases h))
      intro _
      exact quiet_emit _ (by intro el b h; cases h)

/-- Guard calls of a run followed by steps that make none. -/
theorem guardOps_bind_quiet {α β : Type} (m : M α) (f : α → M β) (hf : ∀ a, Quiet (f a)) :
    guardOps (m >>= f).trace = guardOps m.trace := by
  rw [bind_trace, guardOps_append]
  cases m.result with
  | ok a =>
    have := hf a
    unfold Quiet at this
    simp [this]
  | error e => simp

/-- Guard calls of steps that make none, followed by a run. -/
theorem guardOps_quiet_bind {α β : Type} (m : M α) (f : α → M β) (hm : Quiet m) :
    guardOps (m >>= f).trace =
      match m.result with
      | .ok a => guardOps (f a).trace
      | .error _ => [] := by
  rw [bind_trace, guardOps_append]
  have : guardOps m.trace = [] := hm
  rw [this]
  cases m.result <;> simp

theorem guardOps_postBody (env : Env) (dom : Dom) (req : Request) :
    guardOps (do
        let _ ← fetchJSON env req
        writeTo env dom .textInput "textInput.value".toList (.setValue .textInput [])
        writeTo env dom .tagsInput "tagsInput.value".toList (.setValue .tagsInput [])
        emit (.setStatus "Comment posted.".toList .success)
        loadComments env dom
        emit .setTimeout : M Unit).trace = [] ∨
    guardOps (do
        let _ ← fetchJSON env req
        writeTo env dom .textInput "textInput.value".toList (.setValue .textInput [])
        writeTo env dom .tagsInput "tagsInput.value".toList (.setValue .tagsInput [])
        emit (.setStatus "Comment posted.".toList .success)
        loadComments env dom
        emit .setTimeout : M Unit).trace =
      [(.refreshCommentsBtn, true), (.refreshCommentsBtn, false)] := by
  rw [guardOps_quiet_bind _ _ (quiet_fetchJSON _ _)]
  cases (fetchJSON env req).result with
  | error e => left; rfl
  | ok v =>
    simp only []
    rw [guardOps_quiet_bind _ _ (quiet_writeTo _ _ _ _ _ (by intro el b h; cases h))]
    cases (writeTo env dom .textInput "textInput.value".toList (.setValue .textInput [])).result with
    | error e => left; rfl
    | ok u =>
      simp only []
      rw [guardOps_quiet_bind _ _ (quiet_writeTo _ _ _ _ _ (by intro el b h; cases h))]
      cases (writeTo env dom .tagsInput "tagsInput.value".toList
        (.setValue .tagsInput [])).result with
      | error e => left; rfl
      | ok u =>
        simp only []
        right
        rw [guardOps_quiet_bind _ _ (quiet_emit _ (by intro el b h; cases h))]
        simp only [emit_result]
        rw [guardOps_bind_quiet _ _ (fun _ => quiet_emit _ (by intro el b h; cases h))]
        exact guardOps_loadComments env dom

theorem guardOps_tryCatchFinally_gen (body : M Unit) (handler : Thrown → M Unit) (el : Elem)
    (b : Bool) (hh : ∀ e, Quiet (handler e)) :
    guardOps (tryCatchFinally body handler (emit (.disable el b))).trace =
      guardOps body.trace ++ [(el, b)] := by
  rw [tryCatchFinally_trace]
  simp only [guardOps_append]
  cases body.result with
  | ok u => simp [guardOps]
  | error x =>
    have := hh x
    unfold Quiet at this
    simp [guardOps, this]

theorem guardOps_onPostComment (env : Env) (dom : Dom) :
    guardOps (onPostComment env dom).trace = [(.submitBtn, true), (.submitBtn, false)] ∨
    guardOps (onPostComment env dom).trace =
      [(.submitBtn, true), (.refreshCommentsBtn, true), (.refreshCommentsBtn, false),
        (.submitBtn, false)] := by
  unfold onPostComment
  simp only [bind_trace, emit_trace, emit_result, guardOps_append]
  split
  · left
    simp [guardOps]
  · rw [guardOps_tryCatchFinally_gen _ _ _ _ (fun e => quiet_failWith _ e)]
    rcases guardOps_postBody env dom _ with h | h
    · left
      rw [h]
      rfl
    · right
      rw [h]
      rfl


/-! ### From guard-call lists back to traces -/

theorem countP_isGuardCall (el : Elem) (b : Bool) (t : List Event) :
    t.countP (isGuardCall el b) = (guardOps t).count (el, b) := by
  induction t with
  | nil => rfl
  | cons e t ih =>
    cases e with
    | disable e2 c =>
      simp only [guardOps, List.countP_cons, List.count_cons, ih, isGuardCall]
      by_cases h1 : e2 = el <;> by_cases h2 : c = b <;> simp [h1, h2]
    | _ => simp [guardOps, List.countP_cons, ih, isGuardCall]

theorem mem_of_mem_guardOps (el : Elem) (b : Bool) (t : List Event)
    (h : (el, b) ∈ guardOps t) : Event.disable el b ∈ t := by
  induction t with
  | nil => simp at h
  | cons e t ih =>
    cases e with
    | disable e2 c =>
      simp only [guardOps, List.mem_cons, Prod.mk.injEq] at h
      rcases h with ⟨rfl, rfl⟩ | h
      · exact List.mem_cons_self _ _
      · exact List.mem_cons_of_mem _ (ih h)
    | _ => exact List.mem_cons_of_mem _ (ih (by simpa [guardOps] using h))

theorem closedOps_sound (ops : List (Elem × Bool)) (h : closedOps ops = true)
    (el : Elem) (pre post : List (Elem × Bool)) (heq : ops = pre ++ (el, true) :: post) :
    (el, false) ∈ post := by
  induction pre generalizing ops with
  | nil =>
    subst heq
    simp only [List.nil_append, closedOps, Bool.and_eq_true] at h
    simpa using h.1
  | cons p pre ih =>
    subst heq
    obtain ⟨e2, c⟩ := p
    cases c with
    | true =>
      simp only [List.cons_append, closedOps, Bool.and_eq_true] at h
      exact ih _ h.2 rfl
    | false =>
      simp only [List.cons_append, closedOps] at h
      exact ih _ h rfl

theorem release_follows (t : List Event) (h : closedOps (guardOps t) = true) (el : Elem)
    (pre post : List Event) (heq : t = pre ++ Event.disable el true :: post) :
    Event.disable el false ∈ post := by
  apply mem_of_mem_guardOps
  apply closedOps_sound (guardOps t) h el (guardOps pre)
  rw [heq, guardOps_append]
  rfl

/-- The guard calls of an invocation: none, one pair on the trigger, or the submit pair
around the refresh pair. -/
theorem guardOps_invoke (o : Orchestrator) (env : Env) (dom : Dom) :
    guardOps (o.invoke env dom).trace = [] ∨
    guardOps (o.invoke env dom).trace = [(o.trigger, true), (o.trigger, false)] ∨
    guardOps (o.invoke env dom).trace =
      [(.submitBtn, true), (.refreshCommentsBtn, true), (.refreshCommentsBtn, false),
        (.submitBtn, false)] := by
  cases o with
  | loadStateData =>
    have h := guardOps_loadStateData env dom
    split at h
    · left; exact h
    · right; left; exact h
  | loadUsData => right; left; exact guardOps_loadUsData env dom
  | onPostComment =>
    rcases guardOps_onPostComment env dom with h | h
    · right; left; exact h
    · right; right; exact h
  | loadComments => right; left; exact guardOps_loadComments env dom
  | runEda => right; left; exact guardOps_runEda env dom
  | runForecast => right; left; exact guardOps_runForecast env dom

/-- C1. Guard symmetry: in every invocation of each of the six handlers, whatever the
network does, the calls `disable(control, true)` on a control are as many as the calls
`disable(control, false)` on it, and every `disable(control, true)` is followed, before
the invocation ends, by a `disable(control, false)` on the same control. -/
theorem guard_symmetry (o : Orchestrator) (env : Env) (dom : Dom) (el : Elem) :
    (o.invoke env dom).trace.countP (isGuardCall el true) =
      (o.invoke env dom).trace.countP (isGuardCall el false) ∧
    ∀ pre post : List Event,
      (o.invoke env dom).trace = pre ++ Event.disable el true :: post →
        Event.disable el false ∈ post := by
  rw [countP_isGuardCall, countP_isGuardCall]
  rcases guardOps_invoke o env dom with h | h | h
  · refine ⟨by rw [h]; rfl, ?_⟩
    intro pre post heq
    exact release_follows _ (by rw [h]; rfl) el pre post heq
  · refine ⟨?_, ?_⟩
    · rw [h]
      simp only [List.count_cons, List.count_nil, beq_iff_eq, Prod.mk.injEq]
      by_cases he : o.trigger = el <;> simp [he]
    · intro pre post heq
      refine release_follows _ ?_ el pre post heq
      rw [h]
      simp [closedOps]
  · refine ⟨?_, ?_⟩
    · rw [h]
      cases el <;> decide
    · intro pre post heq
      refine release_follows _ ?_ el pre post heq
      rw [h]
      decide


/-! ### Every invocation returns -/

theorem guarded_result (body : M Unit) (c : Str) (e : Event) :
    (tryCatchFinally body (failWith c) (emit e)).result = .ok () := by
  rw [tryCatchFinally_result]
  cases body.result <;> simp

theorem invoke_result (o : Orchestrator) (env : Env) (dom : Dom) :
    (o.invoke env dom).result = .ok () := by
  cases o with
  | loadStateData =>
    show (loadStateData env dom).result = _
    unfold loadStateData
    by_cases h : trim (strOr (inputValue dom .stateInput) []) = []
    · simp only [h, List.isEmpty_nil, if_true]
      rfl
    · simp only [h, List.isEmpty_iff, if_false]
      simp only [bind_result, emit_result, guarded_result]
  | loadUsData =>
    show (loadUsData env dom).result = _
    unfold loadUsData
    simp only [bind_result, emit_result, guarded_result]
  | onPostComment =>
    show (onPostComment env dom).result = _
    unfold onPostComment
    simp only [bind_result, emit_result]
    split
    · rfl
    · exact guarded_result _ _ _
  | loadComments => exact loadComments_result env dom
  | runEda =>
    show (runEda env dom).result = _
    unfold runEda
    simp only [bind_result, emit_result, guarded_result]
  | runForecast =>
    show (runForecast env dom).result = _
    unfold runForecast
    simp only [bind_result, emit_result, guarded_result]

/-! ### Release count -/

/-- C2, as stated, fails: `loadStateData` on a page whose region input is blank returns
after the warning without calling `disable(loadStateBtn, false)`; the release count on
that exit path is zero, not one. -/
theorem release_once_blank_region_counterexample :
    (Orchestrator.loadStateData.invoke envDown freshDom).trace.countP
        (isGuardCall Orchestrator.loadStateData.trigger false) = 0 ∧
    (Orchestrator.loadStateData.invoke envDown freshDom).trace.countP
        (isGuardCall Orchestrator.loadStateData.trigger false) ≠ 1 := by
  decide

/-- C2, amended. On every exit path of every handler invocation (normal return,
validation short-circuit of `onPostComment`, caught failure) the release
`disable(trigger, false)` runs exactly once, except on the validation short-circuit of
`loadStateData` (blank region name), which returns before the guard is acquired and
makes neither the acquire nor the release call.  Every invocation returns normally. -/
theorem release_once (o : Orchestrator) (env : Env) (dom : Dom) :
    (o.invoke env dom).trace.countP (isGuardCall o.trigger false) =
      (if o = .loadStateData ∧ trim (strOr (inputValue dom .stateInput) []) = [] then 0
        else 1) ∧
    (o.invoke env dom).trace.countP (isGuardCall o.trigger true) =
      (o.invoke env dom).trace.countP (isGuardCall o.trigger false) ∧
    (o.invoke env dom).result = .ok () := by
  refine ⟨?_, ?_, invoke_result o env dom⟩ <;> rw [countP_isGuardCall] <;>
    try rw [countP_isGuardCall]
  all_goals cases o with
  | loadStateData =>
    have h : guardOps (Orchestrator.loadStateData.invoke env dom).trace = _ :=
      guardOps_loadStateData env dom
    rw [h]
    by_cases hb : trim (strOr (inputValue dom .stateInput) []) = []
    · simp [hb]
    · simp [hb, Orchestrator.trigger]
  | loadUsData =>
    have h : guardOps (Orchestrator.loadUsData.invoke env dom).trace = _ :=
      guardOps_loadUsData env dom
    rw [h]
    simp [Orchestrator.trigger]
  | onPostComment =>
    have h : guardOps (Orchestrator.onPostComment.invoke env dom).trace = _ ∨
        guardOps (Orchestrator.onPostComment.invoke env dom).trace = _ :=
      guardOps_onPostComment env dom
    rcases h with h | h <;> rw [h] <;> simp [Orchestrator.trigger]
  | loadComments =>
    have h : guardOps (Orchestrator.loadComments.invoke env dom).trace = _ :=
      guardOps_loadComments env dom
    rw [h]
    simp [Orchestrator.trigger]
  | runEda =>
    have h : guardOps (Orchestrator.runEda.invoke env dom).trace = _ :=
      guardOps_runEda env dom
    rw [h]
    simp [Orchestrator.trigger]
  | runForecast =>
    have h : guardOps (Orchestrator.runForecast.invoke env dom).trace = _ :=
      guardOps_runForecast env dom
    rw [h]
    simp [Orchestrator.trigger]

/-! ### The result normalizer -/

theorem fetchJSON_response (env : Env) (req : Request) (status : Nat) (body : Option Str)
    (h : env.net req = .response status body) :
    fetchJSON env req =
      ⟨[.fetch req],
        if resOk status then .ok (parsedBody env body)
        else .error (newError (errorValue (parsedBody env body) status))⟩ := by
  unfold fetchJSON
  show M.bind _ _ = _
  unfold M.bind
  simp only [emit_result, emit_trace, h]
  cases resOk status <;> rfl

theorem fetchJSON_reject (env : Env) (req : Request) (message : Str)
    (h : env.net req = .reject message) :
    fetchJSON env req = ⟨[.fetch req], .error (.typeError message)⟩ := by
  unfold fetchJSON
  show M.bind _ _ = _
  unfold M.bind
  simp only [emit_result, emit_trace, h]
  rfl

theorem resOk_iff (status : Nat) : resOk status = true ↔ 200 ≤ status ∧ status ≤ 299 := by
  simp [resOk]

theorem newError_errorValue (data : JsVal) (status : Nat) :
    ∃ msg, newError (errorValue data status) = .error msg := by
  unfold newError
  split
  · exact ⟨_, rfl⟩
  · exact ⟨_, rfl⟩

/-- C3. Normalizer totality: whatever response `fetch` resolves to (any status code, any
body text, or a body read that fails), `fetchJSON` makes the one network call and ends in
exactly one of two ways.  When the status is a success code (200 to 299) it returns the
payload: `null` when the body read failed or the text is empty, the parsed value when the
text parses, the raw text otherwise.  When the status is not a success code it throws an
`Error` carrying a message, and nothing else. -/
theorem fetchJSON_total (env : Env) (req : Request) (status : Nat) (body : Option Str)
    (h : env.net req = .response status body) :
    (fetchJSON env req).trace = [.fetch req] ∧
    (((200 ≤ status ∧ status ≤ 299) ∧
        (fetchJSON env req).result = .ok
          (match body with
            | none => .null
            | some [] => .null
            | some (c :: cs) =>
              match env.jsonParse (c :: cs) with
              | some v => v
              | none => .str (c :: cs))) ∨
      (¬ (200 ≤ status ∧ status ≤ 299) ∧
        ∃ msg, (fetchJSON env req).result = .error (.error msg))) := by
  rw [fetchJSON_response env req status body h]
  refine ⟨rfl, ?_⟩
  by_cases hs : resOk status = true
  · left
    refine ⟨(resOk_iff status).mp hs, ?_⟩
    simp only [hs, if_true]
    congr 1
    unfold parsedBody
    rcases body with _ | ⟨_ | ⟨c, cs⟩⟩ <;> simp
  · right
    refine ⟨fun hr => hs ((resOk_iff status).mpr hr), ?_⟩
    simp only [hs]
    obtain ⟨msg, hm⟩ := newError_errorValue (parsedBody env body) status
    exact ⟨msg, by simp [hm]⟩

/-- Witness for C3: a 200 response whose text does not parse is returned as raw text. -/
theorem fetchJSON_total_witness :
    (constEnv (.response 200 (some "oops".toList)) none).net (getReq "/cases/us".toList) =
      .response 200 (some "oops".toList) ∧
    (fetchJSON (constEnv (.response 200 (some "oops".toList)) none)
        (getReq "/cases/us".toList)).trace = [.fetch (getReq "/cases/us".toList)] ∧
    (((200 ≤ 200 ∧ 200 ≤ 299) ∧
        (fetchJSON (constEnv (.response 200 (some "oops".toList)) none)
          (getReq "/cases/us".toList)).result = .ok (.str "oops".toList)) ∨
      (¬ (200 ≤ 200 ∧ 200 ≤ 299) ∧
        ∃ msg, (fetchJSON (constEnv (.response 200 (some "oops".toList)) none)
          (getReq "/cases/us".toList)).result = .error (.error msg))) :=
  ⟨rfl, fetchJSON_total (constEnv (.response 200 (some "oops".toList)) none)
    (getReq "/cases/us".toList) 200 (some "oops".toList) rfl⟩

/-- C4, as stated, fails: for a 500 response whose body is
`{"detail": "", "error": "boom"}` the body has a `detail` field, yet the message is
`boom`, the `error` field, because `||` skips a falsy `detail`. -/
theorem error_message_empty_detail_counterexample :
    envEmptyDetail.net (getReq "/cases/us".toList) = .response 500 (some "...".toList) ∧
    parsedBody envEmptyDetail (some "...".toList) = emptyDetail ∧
    emptyDetail.optGet "detail".toList = some (.str []) ∧
    specErrorMessage emptyDetail 500 = [] ∧
    (fetchJSON envEmptyDetail (getReq "/cases/us".toList)).result =
      .error (.error "boom".toList) ∧
    (fetchJSON envEmptyDetail (getReq "/cases/us".toList)).result ≠
      .error (.error (specErrorMessage emptyDetail 500)) := by
  refine ⟨rfl, rfl, rfl, rfl, rfl, ?_⟩
  intro h
  have h2 : (Except.error (Thrown.error "boom".toList) : Except Thrown JsVal) =
      .error (.error []) := h
  injection h2 with h3
  injection h3 with h4
  exact absurd h4 (by decide)

/-- C4, amended. For every response whose status is not a success code, `fetchJSON`
throws an `Error` whose message is chosen in this order: the parsed body's `detail`
field when the body has one and it is truthy; otherwise the parsed body's `error` field
when the body has one and it is truthy; otherwise `HTTP <status>`.  A chosen field is
converted with `ToString`.  When the body has no falsy `detail` or `error` field, this
is the order of the specification. -/
theorem error_message_order (env : Env) (req : Request) (status : Nat) (body : Option Str)
    (h : env.net req = .response status body) (hs : ¬ (200 ≤ status ∧ status ≤ 299)) :
    ∃ msg, (fetchJSON env req).result = .error (.error msg) ∧
      (∀ d, (parsedBody env body).optGet "detail".toList = some d → d.truthy = true →
        msg = d.toStr) ∧
      (∀ e, truthy ((parsedBody env body).optGet "detail".toList) = false →
        (parsedBody env body).optGet "error".toList = some e → e.truthy = true →
        msg = e.toStr) ∧
      (truthy ((parsedBody env body).optGet "detail".toList) = false →
        truthy ((parsedBody env body).optGet "error".toList) = false →
        msg = "HTTP ".toList ++ (toString status).toList) ∧
      ((∀ d, (parsedBody env body).optGet "detail".toList = some d → d.truthy = true) →
        (∀ e, (parsedBody env body).optGet "error".toList = some e → e.truthy = true) →
        msg = specErrorMessage (parsedBody env body) status) := by
  have hs2 : resOk status = false := by
    cases hr : resOk status with
    | false => rfl
    | true => exact absurd ((resOk_iff status).mp hr) hs
  rw [fetchJSON_response env req status body h]
  simp only [hs2]
  generalize parsedBody env body = data
  unfold errorValue specErrorMessage
  cases hd : data.optGet "detail".toList with
  | none =>
    cases he : data.optGet "error".toList with
    | none =>
      refine ⟨_, rfl, ?_, ?_, ?_, ?_⟩
      · intro d hd2; cases hd2
      · intro e _ he2; cases he2
      · intro _ _; rfl
      · intro _ _; rfl
    | some e =>
      cases ht : e.truthy with
      | true =>
        refine ⟨e.toStr, ?_, ?_, ?_, ?_, ?_⟩
        · simp [jsOr, truthy, ht, newError]
        · intro d hd2; cases hd2
        · intro e2 _ he2 _
          cases he2
          rfl
        · intro _ h2
          simp [truthy, ht] at h2
        · intro _ _; rfl
      | false =>
        refine ⟨"HTTP ".toList ++ (toString status).toList, ?_, ?_, ?_, ?_, ?_⟩
        · simp [jsOr, truthy, ht, newError, JsVal.toStr]
        · intro d hd2; cases hd2
        · intro e2 _ he2 h3
          cases he2
          rw [ht] at h3
          cases h3
        · intro _ _; rfl
        · intro _ h2
          have := h2 e rfl
          rw [ht] at this
          cases this
  | some d =>
    cases ht : d.truthy with
    | true =>
      refine ⟨d.toStr, ?_, ?_, ?_, ?_, ?_⟩
      · simp [jsOr, truthy, ht, newError]
      · intro d2 hd2 _
        cases hd2
        rfl
      · intro e h2
        simp [truthy, ht] at h2
      · intro h2
        simp [truthy, ht] at h2
      · intro _ _; rfl
    | false =>
      cases he : data.optGet "error".toList with
      | none =>
        refine ⟨"HTTP ".toList ++ (toString status).toList, ?_, ?_, ?_, ?_, ?_⟩
        · simp [jsOr, truthy, ht, newError, JsVal.toStr]
        · intro d2 hd2 h3
          cases hd2
          rw [ht] at h3
          cases h3
        · intro e _ he2; cases he2
        · intro _ _; rfl
        · intro h2 _
          have := h2 d rfl
          rw [ht] at this
          cases this
      | some e =>
        cases hte : e.truthy with
        | true =>
          refine ⟨e.toStr, ?_, ?_, ?_, ?_, ?_⟩
          · simp [jsOr, truthy, ht, hte, newError]
          · intro d2 hd2 h3
            cases hd2
            rw [ht] at h3
            cases h3
          · intro e2 _ he2 _
            cases he2
            rfl
          · intro _ h2
            simp [truthy, hte] at h2
          · intro h2 _
            have := h2 d rfl
            rw [ht] at this
            cases this
        | false =>
          refine ⟨"HTTP ".toList ++ (toString status).toList, ?_, ?_, ?_, ?_, ?_⟩
          · simp [jsOr, truthy, ht, hte, newError, JsVal.toStr]
          · intro d2 hd2 h3
            cases hd2
            rw [ht] at h3
            cases h3
          · intro e2 _ he2 h3
            cases he2
            rw [hte] at h3
            cases h3
          · intro _ _; rfl
          · intro h2 _
            have := h2 d rfl
            rw [ht] at this
            cases this


/-- Witness for C4: a 500 response with an empty body gives `HTTP 500`. -/
theorem error_message_order_witness :
    envDown.net (getReq "/cases/us".toList) = .response 500 (some []) ∧
    ¬ (200 ≤ 500 ∧ 500 ≤ 299) ∧
    ∃ msg, (fetchJSON envDown (getReq "/cases/us".toList)).result = .error (.error msg) ∧
      (∀ d, (parsedBody envDown (some [])).optGet "detail".toList = some d →
        d.truthy = true → msg = d.toStr) ∧
      (∀ e, truthy ((parsedBody envDown (some [])).optGet "detail".toList) = false →
        (parsedBody envDown (some [])).optGet "error".toList = some e → e.truthy = true →
        msg = e.toStr) ∧
      (truthy ((parsedBody envDown (some [])).optGet "detail".toList) = false →
        truthy ((parsedBody envDown (some [])).optGet "error".toList) = false →
        msg = "HTTP ".toList ++ (toString 500).toList) ∧
      ((∀ d, (parsedBody envDown (some [])).optGet "detail".toList = some d →
          d.truthy = true) →
        (∀ e, (parsedBody envDown (some [])).optGet "error".toList = some e →
          e.truthy = true) →
        msg = specErrorMessage (parsedBody envDown (some [])) 500) :=
  ⟨rfl, by decide,
    error_message_order envDown (getReq "/cases/us".toList) 500 (some []) rfl (by decide)⟩

/-! ### Effect of `setStatus` and `disable` on the page, field by field -/

@[simp] theorem setStatus_has (m : Str) (t : Severity) (d : Dom) :
    (setStatus m t d).has = d.has := by
  unfold setStatus; split <;> rfl

@[simp] theorem setStatus_timers (m : Str) (t : Severity) (d : Dom) :
    (setStatus m t d).timers = d.timers := by
  unfold setStatus; split <;> rfl

@[simp] theorem setStatus_disabled (m : Str) (t : Severity) (d : Dom) :
    (setStatus m t d).disabled = d.disabled := by
  unfold setStatus; split <;> rfl

@[simp] theorem setStatus_isLoading (m : Str) (t : Severity) (d : Dom) :
    (setStatus m t d).isLoading = d.isLoading := by
  unfold setStatus; split <;> rfl

@[simp] theorem setStatus_src (m : Str) (t : Severity) (d : Dom) :
    (setStatus m t d).src = d.src := by
  unfold setStatus; split <;> rfl

theorem setStatus_status (m : Str) (t : Severity) (d : Dom) (h : d.has .status = true) :
    (setStatus m t d).status = (m.isEmpty, m, t) := by
  unfold setStatus Dom.status; simp [h]

@[simp] theorem disable_has (el : Elem) (b : Bool) (d : Dom) :
    (disable el b d).has = d.has := by
  unfold disable; split <;> rfl

@[simp] theorem disable_timers (el : Elem) (b : Bool) (d : Dom) :
    (disable el b d).timers = d.timers := by
  unfold disable; split <;> rfl

@[simp] theorem disable_src (el : Elem) (b : Bool) (d : Dom) :
    (disable el b d).src = d.src := by
  unfold disable; split <;> rfl

@[simp] theorem disable_status (el : Elem) (b : Bool) (d : Dom) :
    (disable el b d).status = d.status := by
  unfold disable Dom.status; split <;> rfl

theorem disable_disabled_self (el : Elem) (b : Bool) (d : Dom) (h : d.has el = true) :
    (disable el b d).disabled el = b ∧ (disable el b d).isLoading el = b := by
  unfold disable; simp [h, setAt]

theorem disable_disabled_other (el el2 : Elem) (b : Bool) (d : Dom) (h : el2 ≠ el) :
    (disable el b d).disabled el2 = d.disabled el2 := by
  unfold disable; split
  · rfl
  · simp [setAt, h]

/-! ### Validation short-circuit of `onPostComment` -/

theorem blank_comment (dom : Dom)
    (hblank : dom.has .textInput = false ∨ trim (dom.value .textInput) = []) :
    strOr ((inputValue dom .textInput).map trim) [] = [] := by
  unfold inputValue
  rcases hblank with h | h
  · simp [h, strOr]
  · cases hh : dom.has .textInput <;> simp [strOr, h]

theorem onPostComment_blank_trace (env : Env) (dom : Dom)
    (hblank : dom.has .textInput = false ∨ trim (dom.value .textInput) = []) :
    onPostComment env dom =
      ⟨[.preventDefault, .disable .submitBtn true,
        .setStatus "Posting comment…".toList .info,
        .setStatus "Comment text is required.".toList .warn,
        .disable .submitBtn false], .ok ()⟩ := by
  unfold onPostComment
  simp only [blank_comment dom hblank, List.isEmpty_nil, if_true]
  rfl

/-- C5. Validation short-circuit: when the comment text is empty or only white space
(or the text input is missing), `onPostComment` makes no network call (neither the POST
nor the list refresh), returns normally, schedules no auto-clear, ends with the status
box showing the `warn` message "Comment text is required.", and leaves the submit
control enabled and without the busy indicator. -/
theorem blank_comment_short_circuit (env : Env) (dom : Dom)
    (hblank : dom.has .textInput = false ∨ trim (dom.value .textInput) = []) :
    (∀ e ∈ (onPostComment env dom).trace, isFetch e = false) ∧
    (onPostComment env dom).result = .ok () ∧
    (run .onPostComment env dom).timers = dom.timers ∧
    (dom.has .status = true →
      (run .onPostComment env dom).status =
        (false, "Comment text is required.".toList, Severity.warn)) ∧
    (dom.has .submitBtn = true →
      (run .onPostComment env dom).disabled .submitBtn = false ∧
      (run .onPostComment env dom).isLoading .submitBtn = false) := by
  have ht := onPostComment_blank_trace env dom hblank
  refine ⟨?_, ?_, ?_, ?_, ?_⟩
  · rw [ht]
    intro e he
    simp only [List.mem_cons, List.mem_singleton, List.not_mem_nil, or_false] at he
    rcases he with rfl | rfl | rfl | rfl | rfl <;> rfl
  · rw [ht]
  · show (replay (onPostComment env dom).trace dom).timers = _
    rw [ht]
    simp [replay, applyEvent]
  · intro hs
    show (replay (onPostComment env dom).trace dom).status = _
    rw [ht]
    simp only [replay, List.foldl, applyEvent, disable_status]
    rw [setStatus_status _ _ _ (by simpa using hs)]
    rfl
  · intro hb
    show (replay (onPostComment env dom).trace dom).disabled _ = _ ∧
      (replay (onPostComment env dom).trace dom).isLoading _ = _
    rw [ht]
    simp only [replay, List.foldl, applyEvent]
    exact disable_disabled_self _ _ _ (by simpa using hb)

/-- Witness for C5: a comment made of blanks only. -/
theorem blank_comment_short_circuit_witness :
    ((withInput .textInput "   ".toList).has .textInput = false ∨
      trim ((withInput .textInput "   ".toList).value .textInput) = []) ∧
    (∀ e ∈ (onPostComment envRows (withInput .textInput "   ".toList)).trace,
      isFetch e = false) ∧
    (onPostComment envRows (withInput .textInput "   ".toList)).result = .ok () ∧
    (run .onPostComment envRows (withInput .textInput "   ".toList)).timers =
      (withInput .textInput "   ".toList).timers ∧
    ((withInput .textInput "   ".toList).has .status = true →
      (run .onPostComment envRows (withInput .textInput "   ".toList)).status =
        (false, "Comment text is required.".toList, Severity.warn)) ∧
    ((withInput .textInput "   ".toList).has .submitBtn = true →
      (run .onPostComment envRows (withInput .textInput "   ".toList)).disabled .submitBtn =
        false ∧
      (run .onPostComment envRows (withInput .textInput "   ".toList)).isLoading .submitBtn =
        false) :=
  ⟨Or.inr (by decide),
    blank_comment_short_circuit envRows (withInput .textInput "   ".toList)
      (Or.inr (by decide))⟩


/-! ### `runEda` on a domain failure -/

theorem jobFailure_ok (e : Str) : truthy ((jobFailure e).optGet "ok".toList) = false := by
  simp [jobFailure, JsVal.optGet, JsVal.get, lookupField, truthy, JsVal.truthy]

theorem jobFailure_error (e : Str) :
    (jobFailure e).optGet "error".toList = some (.str e) := by
  simp [jobFailure, JsVal.optGet, JsVal.get, lookupField]

theorem runEda_failure_trace (env : Env) (dom : Dom) (status : Nat) (body : Option Str)
    (e : Str)
    (hnet : env.net (postJson "/eda".toList (edaBody dom)) = .response status body)
    (hok : 200 ≤ status ∧ status ≤ 299) (hdata : parsedBody env body = jobFailure e) :
    (runEda env dom).trace =
      [.disable .runEdaBtn true,
        .setStatus "Running EDA… first run may take longer.".toList .info,
        .fetch (postJson "/eda".toList (edaBody dom)),
        .consoleError (.error (if e = [] then "EDA failed".toList else e)),
        .setStatus ("EDA failed: ".toList ++ (if e = [] then "EDA failed".toList else e)) .error,
        .disable .runEdaBtn false] ∧
    (runEda env dom).result = .ok () := by
  have hr : resOk status = true := (resOk_iff status).mpr hok
  unfold runEda
  simp only [bind_trace, bind_result, emit_trace, emit_result, tryCatchFinally_trace,
    tryCatchFinally_result, fetchJSON_response env _ status body hnet, hr, hdata, if_true,
    jobFailure_ok, jobFailure_error, Bool.not_false, raise_trace, raise_result,
    failWith_trace, failWith_result]
  by_cases he : e = []
  · subst he
    simp [jsOr, truthy, JsVal.truthy, newError, JsVal.toStr, Thrown.message]
  · have : e.isEmpty = false := by cases e <;> simp_all
    simp [jsOr, truthy, JsVal.truthy, newError, JsVal.toStr, Thrown.message, he, this]


/-- C7, as stated, fails: on a fresh page (derived controls disabled) an EDA run that
succeeds enables the three derived controls, and a following EDA run that ends in the
domain failure `{ok: false, error: "insufficient data"}` announces the error and leaves
all three enabled, because the failure path does not write them. -/
theorem runEda_failure_after_success_counterexample :
    freshDom.disabled .openCasesHtmlBtn = true ∧
    freshDom.disabled .openDeathsHtmlBtn = true ∧
    freshDom.disabled .downloadCsvBtn = true ∧
    (steps freshDom [.invoke .runEda envEdaReady, .invoke .runEda envEdaFails]).status =
      (false, "EDA failed: insufficient data".toList, Severity.error) ∧
    (steps freshDom
      [.invoke .runEda envEdaReady, .invoke .runEda envEdaFails]).disabled .openCasesHtmlBtn =
        false ∧
    (steps freshDom
      [.invoke .runEda envEdaReady, .invoke .runEda envEdaFails]).disabled .openDeathsHtmlBtn =
        false ∧
    (steps freshDom
      [.invoke .runEda envEdaReady, .invoke .runEda envEdaFails]).disabled .downloadCsvBtn =
        false := by
  decide

/-- C7, amended. For every EDA run whose transport succeeds and whose job result is the
domain failure `{ok: false, error: e}`, `runEda` returns normally and ends with an
`error` status whose text is "EDA failed: " followed by `e` (by "EDA failed" when `e` is
empty), writes no frame source, schedules no auto-clear, and does not write the three
derived controls: each is left as it was before the run, so disabled if it was
disabled. -/
theorem runEda_domain_failure (env : Env) (dom : Dom) (status : Nat) (body : Option Str)
    (e : Str)
    (hnet : env.net (postJson "/eda".toList (edaBody dom)) = .response status body)
    (hok : 200 ≤ status ∧ status ≤ 299) (hdata : parsedBody env body = jobFailure e) :
    (runEda env dom).result = .ok () ∧
    (∀ ev ∈ (runEda env dom).trace, isDerivedWrite ev = false ∧ isSetTimeout ev = false) ∧
    (run .runEda env dom).timers = dom.timers ∧
    (run .runEda env dom).src = dom.src ∧
    (run .runEda env dom).disabled .openCasesHtmlBtn = dom.disabled .openCasesHtmlBtn ∧
    (run .runEda env dom).disabled .openDeathsHtmlBtn = dom.disabled .openDeathsHtmlBtn ∧
    (run .runEda env dom).disabled .downloadCsvBtn = dom.disabled .downloadCsvBtn ∧
    (dom.has .status = true →
      (run .runEda env dom).status =
        (false, "EDA failed: ".toList ++ (if e = [] then "EDA failed".toList else e),
          Severity.error) ∧
      ("EDA failed: ".toList ++ e) <+:
        ("EDA failed: ".toList ++ (if e = [] then "EDA failed".toList else e))) := by
  obtain ⟨ht, hres⟩ := runEda_failure_trace env dom status body e hnet hok hdata
  refine ⟨hres, ?_, ?_, ?_, ?_, ?_, ?_, ?_⟩
  · rw [ht]
    intro ev hev
    simp only [List.mem_cons, List.mem_singleton, List.not_mem_nil, or_false] at hev
    rcases hev with rfl | rfl | rfl | rfl | rfl | rfl <;> exact ⟨rfl, rfl⟩
  · show (replay (runEda env dom).trace dom).timers = _
    rw [ht]
    simp [replay, applyEvent]
  · show (replay (runEda env dom).trace dom).src = _
    rw [ht]
    simp [replay, applyEvent]
  · show (replay (runEda env dom).trace dom).disabled _ = _
    rw [ht]
    simp only [replay, List.foldl, applyEvent]
    rw [disable_disabled_other _ _ _ _ (by decide), setStatus_disabled, setStatus_disabled,
      disable_disabled_other _ _ _ _ (by decide)]
  · show (replay (runEda env dom).trace dom).disabled _ = _
    rw [ht]
    simp only [replay, List.foldl, applyEvent]
    rw [disable_disabled_other _ _ _ _ (by decide), setStatus_disabled, setStatus_disabled,
      disable_disabled_other _ _ _ _ (by decide)]
  · show (replay (runEda env dom).trace dom).disabled _ = _
    rw [ht]
    simp only [replay, List.foldl, applyEvent]
    rw [disable_disabled_other _ _ _ _ (by decide), setStatus_disabled, setStatus_disabled,
      disable_disabled_other _ _ _ _ (by decide)]
  · intro hs
    refine ⟨?_, ?_⟩
    · show (replay (runEda env dom).trace dom).status = _
      rw [ht]
      simp only [replay, List.foldl, applyEvent, disable_status]
      rw [setStatus_status _ _ _ (by simpa using hs)]
      rfl
    · by_cases he : e = []
      · subst he
        simp
      · simp [he]

/-- Witness for C7: the failing EDA run of scenario 3 on a fresh page. -/
theorem runEda_domain_failure_witness :
    envEdaFails.net (postJson "/eda".toList (edaBody freshDom)) =
      .response 200 (some "...".toList) ∧
    (200 ≤ 200 ∧ 200 ≤ 299) ∧
    parsedBody envEdaFails (some "...".toList) = jobFailure "insufficient data".toList ∧
    (runEda envEdaFails freshDom).result = .ok () ∧
    (∀ ev ∈ (runEda envEdaFails freshDom).trace,
      isDerivedWrite ev = false ∧ isSetTimeout ev = false) ∧
    (run .runEda envEdaFails freshDom).timers = freshDom.timers ∧
    (run .runEda envEdaFails freshDom).src = freshDom.src ∧
    (run .runEda envEdaFails freshDom).disabled .openCasesHtmlBtn =
      freshDom.disabled .openCasesHtmlBtn ∧
    (run .runEda envEdaFails freshDom).disabled .openDeathsHtmlBtn =
      freshDom.disabled .openDeathsHtmlBtn ∧
    (run .runEda envEdaFails freshDom).disabled .downloadCsvBtn =
      freshDom.disabled .downloadCsvBtn ∧
    (freshDom.has .status = true →
      (run .runEda envEdaFails freshDom).status =
        (false, "EDA failed: ".toList ++
          (if "insufficient data".toList = [] then "EDA failed".toList
            else "insufficient data".toList), Severity.error) ∧
      ("EDA failed: ".toList ++ "insufficient data".toList) <+:
        ("EDA failed: ".toList ++
          (if "insufficient data".toList = [] then "EDA failed".toList
            else "insufficient data".toList))) :=
  ⟨rfl, by decide, rfl,
    runEda_domain_failure envEdaFails freshDom 200 (some "...".toList)
      "insufficient data".toList rfl (by decide) rfl⟩

/-! ### The forecast request -/

/-- C9, failing input. With the day-count input holding `abc` (or `.5`, which a numeric
input accepts) `parseInt` yields `NaN`: the submitted body carries `days = NaN`
(`none`), not the default 30.  With a blank input the default 30 is used. -/
theorem forecast_days_unparsable :
    forecastBody (withInput .fcDays "abc".toList) = .forecast "California".toList none ∧
    forecastBody (withInput .fcDays ".5".toList) = .forecast "California".toList none ∧
    forecastBody (withInput .fcDays []) = .forecast "California".toList (some 30) ∧
    forecastBody (withInput .fcDays "14".toList) = .forecast "California".toList (some 14) ∧
    (runForecast envDown (withInput .fcDays "abc".toList)).trace.filter isFetch =
      [.fetch (postJson "/forecast".toList (.forecast "California".toList none))] := by
  refine ⟨by decide, by decide, by decide, by decide, rfl⟩


/-! ### The chart traces -/

theorem mapRows_obj {β : Type} (env : Env) (expr key : Str) (g : Option JsVal → β)
    (rows : List (List (Str × JsVal))) :
    mapRows (fun r => (member env expr r key).map g) (rows.map .obj) =
      .ok (rows.map (fun r => g (lookupField key r))) := by
  induction rows with
  | nil => rfl
  | cons r rs ih =>
    simp only [List.map_cons, mapRows, ih]
    rfl

theorem mapRows_obj_date (env : Env) (expr key : Str) (rows : List (List (Str × JsVal))) :
    mapRows (fun r => member env expr r key) (rows.map .obj) =
      .ok (rows.map (fun r => lookupField key r)) := by
  induction rows with
  | nil => rfl
  | cons r rs ih =>
    simp only [List.map_cons, mapRows, ih]
    rfl

theorem nullish_eq (a : Option JsVal) (b : JsVal) :
    nullish a b =
      (match a with
        | none => b
        | some .null => b
        | some v => v) := by
  unfold nullish
  rfl

/-- C10. For every sequence of rows (objects), every value field and every
moving-average field, `plotSeries` returns normally and hands `Plotly.newPlot` exactly
two traces, "Daily" and "7-day MA", over the same `x` array; `x`, `y` and the
moving-average array are as long as `rows`, and at every index `x` holds the row's
`date`, `y` the row's value field, or 0 when that field is missing (absent or `null`),
and the moving-average array the row's moving-average field, or 0 when missing.  On
the two rows of scenario 1 this gives x = ["2021-01-01", "2021-01-02"], y = [10, 12]
and ma = [8, 9] for cases, and y = ma = [0, 0] for deaths. -/
theorem plotSeries_traces :
    (∀ (env : Env) (containerId : Str) (rows : List (List (Str × JsVal)))
        (yKey maKey title : Str),
      ∃ (x : List (Option JsVal)) (y ma : List JsVal) (layout : Layout),
        (plotSeries env containerId (.arr (rows.map .obj)) yKey maKey title).result = .ok () ∧
        (plotSeries env containerId (.arr (rows.map .obj)) yKey maKey title).trace =
          [.newPlot containerId
            [ ⟨x, y, "scatter".toList, "lines".toList, "Daily".toList⟩,
              ⟨x, ma, "scatter".toList, "lines".toList, "7-day MA".toList⟩ ] layout] ∧
        layout.title = title ∧
        x.length = rows.length ∧ y.length = rows.length ∧ ma.length = rows.length ∧
        ∀ (i : Nat) (r : List (Str × JsVal)), rows[i]? = some r →
          x[i]? = some (lookupField "date".toList r) ∧
          y[i]? = some
            (match lookupField yKey r with
              | none => .num 0
              | some .null => .num 0
              | some v => v) ∧
          ma[i]? = some
            (match lookupField maKey r with
              | none => .num 0
              | some .null => .num 0
              | some v => v)) ∧
    (plotSeries envRows "casesChart".toList (.arr (scenarioRows.map .obj)) "new_cases".toList
        "ma7_new_cases".toList "New Cases — New York".toList).trace =
      [.newPlot "casesChart".toList
        [ ⟨[some (.str "2021-01-01".toList), some (.str "2021-01-02".toList)],
            [.num 10, .num 12], "scatter".toList, "lines".toList, "Daily".toList⟩,
          ⟨[some (.str "2021-01-01".toList), some (.str "2021-01-02".toList)],
            [.num 8, .num 9], "scatter".toList, "lines".toList, "7-day MA".toList⟩ ]
        ⟨"New Cases — New York".toList, (36, 12, 48, 40), "Date".toList, "date".toList,
          "Count".toList⟩] ∧
    (plotSeries envRows "deathsChart".toList (.arr (scenarioRows.map .obj))
        "new_deaths".toList "ma7_new_deaths".toList "New Deaths — New York".toList).trace =
      [.newPlot "deathsChart".toList
        [ ⟨[some (.str "2021-01-01".toList), some (.str "2021-01-02".toList)],
            [.num 0, .num 0], "scatter".toList, "lines".toList, "Daily".toList⟩,
          ⟨[some (.str "2021-01-01".toList), some (.str "2021-01-02".toList)],
            [.num 0, .num 0], "scatter".toList, "lines".toList, "7-day MA".toList⟩ ]
        ⟨"New Deaths — New York".toList, (36, 12, 48, 40), "Date".toList, "date".toList,
          "Count".toList⟩] := by
  refine ⟨?_, rfl, rfl⟩
  intro env containerId rows yKey maKey title
  refine ⟨rows.map (fun r => lookupField "date".toList r),
    rows.map (fun r => nullish (lookupField yKey r) (.num 0)),
    rows.map (fun r => nullish (lookupField maKey r) (.num 0)),
    ⟨title, (36, 12, 48, 40), "Date".toList, "date".toList, "Count".toList⟩, ?_, ?_, rfl,
    ?_, ?_, ?_, ?_⟩
  · unfold plotSeries
    simp only [bind_result, liftE_result, mapRows_obj, mapRows_obj_date, emit_result]
  · unfold plotSeries
    simp only [bind_trace, bind_result, liftE_trace, liftE_result, mapRows_obj,
      mapRows_obj_date, emit_trace, List.nil_append]
  · simp
  · simp
  · simp
  · intro i r hr
    simp only [List.getElem?_map, hr, Option.map_some', nullish_eq]
    exact ⟨trivial, trivial, trivial⟩


/-! ### Tag parsing -/

theorem textOrEmpty (text : Option Str) :
    (match text with
      | some (c :: cs) => c :: cs
      | _ => []) = text.getD [] := by
  rcases text with _ | ⟨_ | ⟨c, cs⟩⟩ <;> rfl

theorem mem_trim (p : Str) (c : Char) (h : c ∈ trim p) : c ∈ p := by
  obtain ⟨l, r, hp, _, _⟩ := trim_decomp p
  rw [hp]
  simp [h]

/-- C8. Tag parsing: for every input string, and for an absent input, `splitTags`
returns, in their original order, the comma-separated pieces of the input with leading
and trailing white space removed and empty results dropped.  The pieces are
comma-free strings that joined by commas give back the input; trimming a piece removes
only white space at its two ends and leaves none there.  So no returned tag is empty,
contains a comma, or starts or ends with white space.  In particular `"a, b ,, c"` gives
`["a", "b", "c"]`, and `""`, `","` and an absent input give `[]`. -/
theorem splitTags_spec :
    (∀ text : Option Str, ∃ pieces : List Str,
      joinWith ',' pieces = text.getD [] ∧
      (∀ p ∈ pieces, ',' ∉ p) ∧
      splitTags text = (pieces.map trim).filter (fun t => !t.isEmpty) ∧
      (∀ p ∈ pieces, ∃ l r : Str, p = l ++ trim p ++ r ∧
        (∀ c ∈ l, isWhiteSpace c = true) ∧ (∀ c ∈ r, isWhiteSpace c = true) ∧
        (∀ c, (trim p).head? = some c → isWhiteSpace c = false) ∧
        (∀ c, (trim p).getLast? = some c → isWhiteSpace c = false)) ∧
      (∀ t ∈ splitTags text, t ≠ [] ∧ ',' ∉ t ∧
        (∀ c, t.head? = some c → isWhiteSpace c = false) ∧
        (∀ c, t.getLast? = some c → isWhiteSpace c = false))) ∧
    splitTags (some "a, b ,, c".toList) = ["a".toList, "b".toList, "c".toList] ∧
    splitTags (some "".toList) = [] ∧
    splitTags (some ",".toList) = [] ∧
    splitTags none = [] := by
  refine ⟨?_, by decide, by decide, by decide, by decide⟩
  intro text
  refine ⟨splitOn ',' (text.getD []), joinWith_splitOn _ _, not_mem_of_mem_splitOn _ _, ?_,
    ?_, ?_⟩
  · unfold splitTags
    rw [textOrEmpty]
  · intro p _
    obtain ⟨l, r, hp, hl, hr⟩ := trim_decomp p
    exact ⟨l, r, hp, hl, hr, head_trim p, getLast_trim p⟩
  · intro t ht
    unfold splitTags at ht
    rw [textOrEmpty] at ht
    simp only [List.mem_filter, List.mem_map, Bool.not_eq_true', List.isEmpty_eq_false] at ht
    obtain ⟨⟨p, hp, rfl⟩, hne⟩ := ht
    refine ⟨hne, ?_, head_trim p, getLast_trim p⟩
    intro hc
    exact not_mem_of_mem_splitOn _ _ p hp (mem_trim p _ hc)


/-! ### Success announcements and the auto-clear timer -/

theorem avoids_pure {α : Type} (p : Event → Bool) (a : α) : Avoids p (pure a : M α) := by
  intro e he
  cases he

theorem avoids_raise {α : Type} (p : Event → Bool) (x : Thrown) :
    Avoids p (raise x : M α) := by
  intro e he
  cases he

theorem avoids_liftE {α : Type} (p : Event → Bool) (r : Except Thrown α) :
    Avoids p (liftE r) := by
  intro e he
  cases he

theorem avoids_emit (p : Event → Bool) (e : Event) (h : p e = false) : Avoids p (emit e) := by
  intro e2 he
  simp only [emit_trace, List.mem_singleton] at he
  rw [he]
  exact h

theorem avoids_bind {α β : Type} (p : Event → Bool) (m : M α) (f : α → M β)
    (hm : Avoids p m) (hf : ∀ a, Avoids p (f a)) : Avoids p (m >>= f) := by
  intro e he
  rw [bind_trace, List.mem_append] at he
  rcases he with he | he
  · exact hm e he
  · cases hr : m.result with
    | ok a =>
      rw [hr] at he
      exact hf a e he
    | error x =>
      rw [hr] at he
      cases he

theorem avoids_ite {α : Type} (p : Event → Bool) (c : Prop) [Decidable c] (a b : M α)
    (ha : Avoids p a) (hb : Avoids p b) : Avoids p (if c then a else b) := by
  split <;> assumption

theorem avoids_whenJs (p : Event → Bool) (c : Bool) (m : M Unit) (hm : Avoids p m) :
    Avoids p (whenJs c m) := by
  unfold whenJs
  split
  · exact hm
  · exact avoids_pure p _

theorem avoids_fetchJSON (p : Event → Bool) (env : Env) (req : Request)
    (h : p (.fetch req) = false) : Avoids p (fetchJSON env req) := by
  unfold fetchJSON
  apply avoids_bind _ _ _ (avoids_emit _ _ h)
  intro _
  split
  · exact avoids_raise _ _
  · apply avoids_ite
    · exact avoids_raise _ _
    · exact avoids_pure _ _

theorem avoids_plotSeries (p : Event → Bool) (env : Env) (c : Str) (rows : JsVal)
    (y ma t : Str) (h : ∀ ts l, p (.newPlot c ts l) = false) :
    Avoids p (plotSeries env c rows y ma t) := by
  unfold plotSeries
  split
  · apply avoids_bind _ _ _ (avoids_liftE _ _)
    intro _
    apply avoids_bind _ _ _ (avoids_liftE _ _)
    intro _
    apply avoids_bind _ _ _ (avoids_liftE _ _)
    intro _
    exact avoids_emit _ _ (h _ _)
  · exact avoids_raise _ _

theorem avoids_writeTo (p : Event → Bool) (env : Env) (dom : Dom) (el : Elem) (expr : Str)
    (e : Event) (h : p e = false) : Avoids p (writeTo env dom el expr e) := by
  unfold writeTo
  split
  · exact avoids_emit _ _ h
  · exact avoids_raise _ _

theorem avoids_failWith (c : Str) (x : Thrown) : Avoids marksSuccess (failWith c x) := by
  intro e he
  simp only [failWith_trace, List.mem_cons, List.mem_singleton, List.not_mem_nil,
    or_false] at he
  rcases he with rfl | rfl <;> rfl

theorem avoids_appendComments (env : Env) (items : List JsVal) :
    Avoids marksSuccess (appendComments env items) := by
  induction items with
  | nil => exact avoids_pure _ _
  | cons it rest ih =>
    unfold appendComments
    apply avoids_bind _ _ _ (avoids_liftE _ _)
    intro _
    apply avoids_bind _ _ _ (avoids_emit _ _ (by rfl))
    intro _
    exact ih

theorem avoids_tryCatchFinally (p : Event → Bool) (body : M Unit)
    (handler : Thrown → M Unit) (e : Event) (hb : Avoids p body)
    (hh : ∀ x, Avoids p (handler x)) (he : p e = false) :
    Avoids p (tryCatchFinally body handler (emit e)) := by
  intro e2 h2
  rw [tryCatchFinally_trace] at h2
  simp only [List.mem_append, List.mem_singleton] at h2
  rcases h2 with (h2 | h2) | h2
  · exact hb e2 h2
  · cases hr : body.result with
    | ok u =>
      rw [hr] at h2
      cases h2
    | error x =>
      rw [hr] at h2
      exact hh x e2 h2
  · rw [h2]
    exact he

theorem avoids_loadComments (env : Env) (dom : Dom) :
    Avoids marksSuccess (loadComments env dom) := by
  unfold loadComments
  apply avoids_bind _ _ _ (avoids_emit _ _ (by rfl))
  intro _
  refine avoids_tryCatchFinally _ _ _ _ ?_ (fun x => avoids_failWith _ x) (by rfl)
  apply avoids_bind _ _ _ (avoids_fetchJSON _ _ _ (by rfl))
  intro items
  apply avoids_bind _ _ _ (avoids_writeTo _ _ _ _ _ _ (by rfl))
  intro _
  split
  · exact avoids_appendComments _ _
  · exact avoids_appendComments _ _
  · exact avoids_raise _ _

theorem countP_eq_zero_of_avoids (p q : Event → Bool) (t : List Event)
    (h : ∀ e ∈ t, p e = false) (hq : ∀ e, q e = true → p e = true) : t.countP q = 0 := by
  rw [List.countP_eq_zero]
  intro e he hqe
  have := h e he
  rw [hq e hqe] at this
  cases this

theorem marks_of_timeout (e : Event) (h : isSetTimeout e = true) : marksSuccess e = true := by
  simp [marksSuccess, h]

theorem marks_of_success (e : Event) (h : isSuccessStatus e = true) :
    marksSuccess e = true := by
  simp [marksSuccess, h]

theorem endsWithTimer_of_avoids (m : M Unit) (h : Avoids marksSuccess m) : EndsWithTimer m :=
  Or.inl h

theorem endsWithTimer_bind {α : Type} (m : M α) (f : α → M Unit)
    (hm : Avoids marksSuccess m) (hf : ∀ a, EndsWithTimer (f a)) :
    EndsWithTimer (m >>= f) := by
  cases hr : m.result with
  | error x =>
    left
    intro e he
    rw [bind_trace, hr] at he
    simp only [List.append_nil] at he
    exact hm e he
  | ok a =>
    rcases hf a with h | ⟨pre, ht, hres, hc1, hc2⟩
    · left
      intro e he
      rw [bind_trace, hr, List.mem_append] at he
      rcases he with he | he
      · exact hm e he
      · exact h e he
    · right
      refine ⟨m.trace ++ pre, ?_, ?_, ?_, ?_⟩
      · rw [bind_trace, hr]
        simp only []
        rw [ht, List.append_assoc]
      · rw [bind_result, hr]
        exact hres
      · rw [List.countP_append, hc1,
          countP_eq_zero_of_avoids marksSuccess isSetTimeout _ hm marks_of_timeout]
      · rw [List.countP_append, hc2,
          countP_eq_zero_of_avoids marksSuccess isSuccessStatus _ hm marks_of_success]

theorem endsWithTimer_ite (c : Prop) [Decidable c] (a b : M Unit) (ha : EndsWithTimer a)
    (hb : EndsWithTimer b) : EndsWithTimer (if c then a else b) := by
  split <;> assumption

theorem endsWithTimer_announce (msg : Str) :
    EndsWithTimer (do
      emit (.setStatus msg .success)
      emit .setTimeout : M Unit) := by
  right
  exact ⟨[.setStatus msg .success], rfl, rfl, rfl, rfl⟩

theorem endsWithTimer_announce_refresh (env : Env) (dom : Dom) (msg : Str) :
    EndsWithTimer (do
      emit (.setStatus msg .success)
      loadComments env dom
      emit .setTimeout : M Unit) := by
  right
  refine ⟨.setStatus msg .success :: (loadComments env dom).trace, ?_, ?_, ?_, ?_⟩
  · simp only [bind_trace, emit_trace, emit_result, loadComments_result, List.cons_append,
      List.nil_append, List.append_assoc]
  · simp only [bind_result, emit_result, loadComments_result]
  · rw [List.countP_cons,
      countP_eq_zero_of_avoids marksSuccess isSetTimeout _ (avoids_loadComments env dom)
        marks_of_timeout]
    rfl
  · rw [List.countP_cons,
      countP_eq_zero_of_avoids marksSuccess isSuccessStatus _ (avoids_loadComments env dom)
        marks_of_success]
    rfl


theorem discipline_of_avoids (t : List Event) (el : Elem)
    (h : ∀ e ∈ t, marksSuccess e = false) : TimerDiscipline t el := by
  have h1 := countP_eq_zero_of_avoids marksSuccess isSetTimeout t h marks_of_timeout
  have h2 := countP_eq_zero_of_avoids marksSuccess isSuccessStatus t h marks_of_success
  refine ⟨by rw [h1, h2], by rw [h1]; exact Nat.zero_le _, ?_⟩
  intro h3
  rw [h1] at h3
  cases h3

theorem discipline_guarded (pre : List Event) (body : M Unit) (handler : Thrown → M Unit)
    (el : Elem) (hpre : ∀ e ∈ pre, marksSuccess e = false) (hb : EndsWithTimer body)
    (hh : ∀ x, Avoids marksSuccess (handler x)) :
    TimerDiscipline
      (pre ++ (tryCatchFinally body handler (emit (.disable el false))).trace) el := by
  rcases hb with hb | ⟨q, ht, hres, hc1, hc2⟩
  · apply discipline_of_avoids
    intro e he
    rw [List.mem_append] at he
    rcases he with he | he
    · exact hpre e he
    · exact avoids_tryCatchFinally _ _ _ _ hb hh (by rfl) e he
  · have hp1 := countP_eq_zero_of_avoids marksSuccess isSetTimeout pre hpre marks_of_timeout
    have hp2 :=
      countP_eq_zero_of_avoids marksSuccess isSuccessStatus pre hpre marks_of_success
    have htr : pre ++ (tryCatchFinally body handler (emit (.disable el false))).trace =
        (pre ++ q) ++ [.setTimeout, .disable el false] := by
      rw [tryCatchFinally_trace, hres, ht]
      simp
    rw [htr]
    refine ⟨?_, ?_, ?_⟩
    · simp only [List.countP_append, hp1, hp2, hc1, hc2]
      simp [List.countP_cons, isSetTimeout, isSuccessStatus]
    · simp only [List.countP_append, hp1, hc1]
      simp [List.countP_cons, isSetTimeout]
    · intro _
      exact ⟨pre ++ q, rfl⟩

theorem endsWithTimer_loadBody (env : Env) (req : Request) (t1 t2 ok : Str) :
    EndsWithTimer (do
      let rows ← fetchJSON env req
      if !truthy (rows.optGet "length".toList) then
        raise (newError (some (.str "Empty result".toList)))
      else do
        plotSeries env "casesChart".toList rows "new_cases".toList "ma7_new_cases".toList t1
        plotSeries env "deathsChart".toList rows "new_deaths".toList "ma7_new_deaths".toList t2
        emit (.setStatus ok .success)
        emit .setTimeout : M Unit) := by
  apply endsWithTimer_bind _ _ (avoids_fetchJSON _ _ _ (by rfl))
  intro rows
  apply endsWithTimer_ite
  · exact endsWithTimer_of_avoids _ (avoids_raise _ _)
  · apply endsWithTimer_bind _ _ (avoids_plotSeries _ _ _ _ _ _ _ (fun _ _ => rfl))
    intro _
    apply endsWithTimer_bind _ _ (avoids_plotSeries _ _ _ _ _ _ _ (fun _ _ => rfl))
    intro _
    exact endsWithTimer_announce _

theorem discipline_loadUsData (env : Env) (dom : Dom) :
    TimerDiscipline (loadUsData env dom).trace .loadUsBtn := by
  unfold loadUsData
  simp only [bind_trace, emit_trace, emit_result]
  refine discipline_guarded [_, _] _ _ _ ?_ (endsWithTimer_loadBody _ _ _ _ _)
    (fun x => avoids_failWith _ x)
  intro e he
  simp only [List.mem_cons, List.mem_singleton, List.not_mem_nil, or_false] at he
  rcases he with rfl | rfl <;> rfl

theorem discipline_loadStateData (env : Env) (dom : Dom) :
    TimerDiscipline (loadStateData env dom).trace .loadStateBtn := by
  unfold loadStateData
  by_cases h : trim (strOr (inputValue dom .stateInput) []) = []
  · simp only [h, List.isEmpty_nil, if_true]
    apply discipline_of_avoids
    intro e he
    simp only [emit_trace, List.mem_singleton] at he
    rw [he]
    rfl
  · simp only [h, List.isEmpty_iff, if_false]
    simp only [bind_trace, emit_trace, emit_result]
    refine discipline_guarded [_, _] _ _ _ ?_ (endsWithTimer_loadBody _ _ _ _ _)
      (fun x => avoids_failWith _ x)
    intro e he
    simp only [List.mem_cons, List.mem_singleton, List.not_mem_nil, or_false] at he
    rcases he with rfl | rfl <;> rfl

theorem discipline_loadComments (env : Env) (dom : Dom) :
    TimerDiscipline (loadComments env dom).trace .refreshCommentsBtn :=
  discipline_of_avoids _ _ (avoids_loadComments env dom)

theorem discipline_onPostComment (env : Env) (dom : Dom) :
    TimerDiscipline (onPostComment env dom).trace .submitBtn := by
  unfold onPostComment
  simp only [bind_trace, emit_trace, emit_result]
  split
  · apply discipline_of_avoids
    intro e he
    simp only [bind_trace, emit_trace, emit_result, List.mem_append, List.mem_singleton] at he
    rcases he with rfl | rfl | rfl | rfl | rfl <;> rfl
  · refine discipline_guarded [_, _, _] _ _ _ ?_ ?_ (fun x => avoids_failWith _ x)
    · intro e he
      simp only [List.mem_cons, List.mem_singleton, List.not_mem_nil, or_false] at he
      rcases he with rfl | rfl | rfl <;> rfl
    · apply endsWithTimer_bind _ _ (avoids_fetchJSON _ _ _ (by rfl))
      intro _
      apply endsWithTimer_bind _ _ (avoids_writeTo _ _ _ _ _ _ (by rfl))
      intro _
      apply endsWithTimer_bind _ _ (avoids_writeTo _ _ _ _ _ _ (by rfl))
      intro _
      exact endsWithTimer_announce_refresh _ _ _

theorem discipline_runEda (env : Env) (dom : Dom) :
    TimerDiscipline (runEda env dom).trace .runEdaBtn := by
  unfold runEda
  simp only [bind_trace, emit_trace, emit_result]
  refine discipline_guarded [_, _] _ _ _ ?_ ?_ (fun x => avoids_failWith _ x)
  · intro e he
    simp only [List.mem_cons, List.mem_singleton, List.not_mem_nil, or_false] at he
    rcases he with rfl | rfl <;> rfl
  · apply endsWithTimer_bind _ _ (avoids_fetchJSON _ _ _ (by rfl))
    intro data
    apply endsWithTimer_ite
    · exact endsWithTimer_of_avoids _ (avoids_raise _ _)
    · apply endsWithTimer_bind _ _ (avoids_liftE _ _)
      intro urls
      apply endsWithTimer_bind _ _ (avoids_whenJs _ _ _ (avoids_writeTo _ _ _ _ _ _ (by rfl)))
      intro _
      apply endsWithTimer_bind _ _ (avoids_whenJs _ _ _ (avoids_writeTo _ _ _ _ _ _ (by rfl)))
      intro _
      apply endsWithTimer_bind _ _ (avoids_writeTo _ _ _ _ _ _ (by rfl))
      intro _
      apply endsWithTimer_bind _ _ (avoids_writeTo _ _ _ _ _ _ (by rfl))
      intro _
      apply endsWithTimer_bind _ _ (avoids_writeTo _ _ _ _ _ _ (by rfl))
      intro _
      apply endsWithTimer_bind _ _ (avoids_writeTo _ _ _ _ _ _ (by rfl))
      intro _
      apply endsWithTimer_bind _ _ (avoids_writeTo _ _ _ _ _ _ (by rfl))
      intro _
      apply endsWithTimer_bind _ _ (avoids_writeTo _ _ _ _ _ _ (by rfl))
      intro _
      exact endsWithTimer_announce _

theorem discipline_runForecast (env : Env) (dom : Dom) :
    TimerDiscipline (runForecast env dom).trace .runFcBtn := by
  unfold runForecast
  simp only [bind_trace, emit_trace, emit_result]
  refine discipline_guarded [_, _] _ _ _ ?_ ?_ (fun x => avoids_failWith _ x)
  · intro e he
    simp only [List.mem_cons, List.mem_singleton, List.not_mem_nil, or_false] at he
    rcases he with rfl | rfl <;> rfl
  · apply endsWithTimer_bind _ _ (avoids_fetchJSON _ _ _ (by rfl))
    intro data
    apply endsWithTimer_ite
    · exact endsWithTimer_of_avoids _ (avoids_raise _ _)
    · apply endsWithTimer_bind _ _ (avoids_liftE _ _)
      intro url
      apply endsWithTimer_bind _ _ (avoids_whenJs _ _ _ (avoids_writeTo _ _ _ _ _ _ (by rfl)))
      intro _
      apply endsWithTimer_bind _ _ (avoids_writeTo _ _ _ _ _ _ (by rfl))
      intro _
      apply endsWithTimer_bind _ _ (avoids_writeTo _ _ _ _ _ _ (by rfl))
      intro _
      exact endsWithTimer_announce _

theorem discipline_invoke (o : Orchestrator) (env : Env) (dom : Dom) :
    TimerDiscipline (o.invoke env dom).trace o.trigger := by
  cases o with
  | loadStateData => exact discipline_loadStateData env dom
  | loadUsData => exact discipline_loadUsData env dom
  | onPostComment => exact discipline_onPostComment env dom
  | loadComments => exact discipline_loadComments env dom
  | runEda => exact discipline_runEda env dom
  | runForecast => exact discipline_runForecast env dom


/-! ### Status persistence -/

theorem applyEvent_timers (e : Event) (d : Dom) :
    (applyEvent e d).timers = d.timers + (if isSetTimeout e = true then 1 else 0) := by
  cases e <;> simp [applyEvent, isSetTimeout]

theorem replay_timers (t : List Event) (d : Dom) :
    (replay t d).timers = d.timers + t.countP isSetTimeout := by
  induction t generalizing d with
  | nil => rfl
  | cons e t ih =>
    show (replay t (applyEvent e d)).timers = _
    rw [ih, applyEvent_timers, List.countP_cons]
    omega

theorem applyEvent_status (e : Event) (d : Dom) (h : isSetStatus e = false) :
    (applyEvent e d).status = d.status := by
  cases e with
  | setStatus m t => cases h
  | disable el b => exact disable_status el b d
  | _ => rfl

theorem fireTimer_idle (d : Dom) (h : d.timers = 0) : fireTimer d = d := by
  unfold fireTimer
  simp [h]

theorem timers_idle (d : Dom) (n : Nat) (h : d.timers = 0) :
    steps d (List.replicate n .timer) = d := by
  induction n with
  | zero => rfl
  | succ n ih =>
    show steps (step d .timer) (List.replicate n .timer) = d
    have : step d .timer = d := fireTimer_idle d h
    rw [this]
    exact ih

theorem timer_after_success (t : List Event) (el : Elem) (h : TimerDiscipline t el)
    (pre post : List Event) (heq : t = pre ++ Event.setTimeout :: post) :
    ∃ e ∈ pre, isSuccessStatus e = true := by
  obtain ⟨h1, h2, h3⟩ := h
  have hc : t.countP isSetTimeout =
      pre.countP isSetTimeout + (1 + post.countP isSetTimeout) := by
    rw [heq, List.countP_append, List.countP_cons]
    simp only [isSetTimeout, if_true]
    omega
  have hpre : pre.countP isSetTimeout = 0 := by omega
  have hone : t.countP isSetTimeout = 1 := by omega
  obtain ⟨q, hq⟩ := h3 hone
  have hqc : q.countP isSetTimeout = 0 := by
    have : t.countP isSetTimeout = q.countP isSetTimeout + 1 := by
      rw [hq, List.countP_append]
      simp [List.countP_cons, isSetTimeout]
    omega
  have hpq : pre = q := by
    have h4 : pre ++ Event.setTimeout :: post =
        q ++ Event.setTimeout :: [Event.disable el false] := by
      rw [← heq, hq]
    rcases List.append_eq_append_iff.mp h4 with ⟨a, ha1, ha2⟩ | ⟨c, hc1, hc2⟩
    · cases a with
      | nil => simpa using ha1.symm
      | cons x a =>
        simp only [List.cons_append, List.cons.injEq] at ha2
        obtain ⟨rfl, _⟩ := ha2
        rw [ha1, List.countP_append, List.countP_cons] at hqc
        simp [isSetTimeout] at hqc
    · cases c with
      | nil => simpa using hc1
      | cons x c =>
        simp only [List.cons_append, List.cons.injEq] at hc2
        obtain ⟨rfl, _⟩ := hc2
        rw [hc1, List.countP_append, List.countP_cons] at hpre
        simp [isSetTimeout] at hpre
  have hs : pre.countP isSuccessStatus = 1 := by
    have : t.countP isSuccessStatus = q.countP isSuccessStatus := by
      rw [hq, List.countP_append]
      simp [List.countP_cons, isSuccessStatus]
    rw [hpq]
    omega
  have hpos : 0 < pre.countP isSuccessStatus := by omega
  obtain ⟨e, he, hes⟩ := List.countP_pos_iff.mp hpos
  exact ⟨e, he, hes⟩

/-- C6, as stated, fails.  On a fresh page a national load succeeds and schedules its
auto-clear; a second national load fails before that timer fires and announces
"Failed to load USA: HTTP 500"; the pending timer of the first load then fires and
clears the error, so the final visible status is not the one the later action
announced. -/
theorem error_status_cleared_by_timer_counterexample :
    (steps freshDom [.invoke .loadUsData envRows]).status =
      (false, "Loaded: USA".toList, Severity.success) ∧
    (steps freshDom [.invoke .loadUsData envRows]).timers = 1 ∧
    (steps freshDom [.invoke .loadUsData envRows, .invoke .loadUsData envDown]).status =
      (false, "Failed to load USA: HTTP 500".toList, Severity.error) ∧
    (steps freshDom [.invoke .loadUsData envRows, .invoke .loadUsData envDown]).timers = 1 ∧
    (steps freshDom
      [.invoke .loadUsData envRows, .invoke .loadUsData envDown, .timer]).status =
      (true, [], Severity.info) := by
  decide

/-- C6, amended.  Over every sequence of handler runs and timer firings.  A run
schedules at most one auto-clear, and only after it has announced a success status in
the same run.  For the five handlers other than `onPostComment` it schedules one exactly
when it announces success, as its last call before the release of its trigger.  The
status box changes only through a `setStatus` call or a timer firing.  A pending timer
is never cancelled: a timer left by an earlier successful action, when it fires, clears
whatever status a later action has announced, whatever its severity.  So an `error` or
`warn` status stays visible until a later announce replaces it or a pending timer
fires, and with no timer pending it stays through any number of timer actions. -/
theorem status_persistence :
    (∀ (o : Orchestrator) (env : Env) (dom : Dom),
      (o.invoke env dom).trace.countP isSetTimeout ≤ 1 ∧
      (∀ pre post : List Event,
        (o.invoke env dom).trace = pre ++ Event.setTimeout :: post →
          ∃ e ∈ pre, isSuccessStatus e = true) ∧
      (run o env dom).timers = dom.timers + (o.invoke env dom).trace.countP isSetTimeout) ∧
    (∀ (o : Orchestrator) (env : Env) (dom : Dom), o ≠ .onPostComment →
      (o.invoke env dom).trace.countP isSetTimeout =
        (o.invoke env dom).trace.countP isSuccessStatus ∧
      ((o.invoke env dom).trace.countP isSetTimeout = 1 →
        ∃ q : List Event,
          (o.invoke env dom).trace = q ++ [.setTimeout, .disable o.trigger false])) ∧
    (∀ (e : Event) (d : Dom), isSetStatus e = false → (applyEvent e d).status = d.status) ∧
    (∀ d : Dom, d.timers = 0 → fireTimer d = d) ∧
    (∀ (d : Dom) (n : Nat), d.timers = 0 → steps d (List.replicate n .timer) = d) ∧
    (∀ d : Dom, d.has .status = true → 0 < d.timers →
      (fireTimer d).status = (true, [], Severity.info) ∧
      (fireTimer d).timers = d.timers - 1) := by
  refine ⟨?_, ?_, applyEvent_status, fireTimer_idle, timers_idle, ?_⟩
  · intro o env dom
    have hd := discipline_invoke o env dom
    exact ⟨hd.2.1, timer_after_success _ _ hd, replay_timers _ _⟩
  · intro o env dom _
    obtain ⟨h1, _, h3⟩ := discipline_invoke o env dom
    exact ⟨h1, h3⟩
  · intro d hs ht
    have hne : d.timers ≠ 0 := by omega
    unfold fireTimer
    simp only [hne, if_false]
    refine ⟨?_, by simp⟩
    rw [setStatus_status _ _ _ (by simpa using hs)]
    rfl

end App
